import Mathlib

/-!
Verification development for the 4w_sdk control stack (C++ sources under
src/cpp).  The C++ code is shallowly embedded: `float` values are modelled
as exact rationals (`ℚ`), `int`/`size_t` as `Int`/`Nat`, `std::vector` as
`List`, `std::unordered_map` used with string keys as association lists,
and exceptions as explicit error results.  Transport I/O (the `FxCli`
UDP client) is external to the repository; its observable effects are
modelled as an explicit log of transmitted commands, and the results of
parsing a board's status string (`_check_status`) are taken as boolean
inputs at that external boundary.
-/

namespace SdkModel

/-- Association-list lookup by string key (models `unordered_map::find` /
`at` for the string-keyed maps in the sources). -/
def lookupL {α : Type} : List (String × α) → String → Option α
  | [], _ => none
  | (k, v) :: rest, key => if k = key then some v else lookupL rest key

/-- Insert-or-replace for a string-keyed association list
(models `map[key] = value`). -/
def insertL {α : Type} : List (String × α) → String → α → List (String × α)
  | [], key, v => [(key, v)]
  | (k, w) :: rest, key, v =>
      if k = key then (k, v) :: rest else (k, w) :: insertL rest key v

/-- `(xs.drop a).take n`: the contiguous slice `xs[a .. a+n)`;
models reading a range out of a `std::vector`. -/
def sliceL (xs : List ℚ) (a n : Nat) : List ℚ := (xs.drop a).take n

/-- Overwrite `xs[i .. i + vals.length)` with `vals`, element by element;
models a loop of indexed stores / `std::copy` into a pre-sized buffer.
(`List.set` is a no-op out of range, matching that all embedded writes
are in range in the modelled executions.) -/
def writeSeg : List ℚ → Nat → List ℚ → List ℚ
  | xs, _, [] => xs
  | xs, i, v :: vs => writeSeg (xs.set i v) (i + 1) vs

end SdkModel

namespace robot

open SdkModel

/-- The two motor-controller boards (front / rear). -/
inductive Board where
  | front
  | rear
deriving DecidableEq, Repr

/-- A datagram transmitted to a board by the SDK (the arguments of
`FxCli::operation_control` and `FxCli::motor_estop`). -/
inductive BoardCmd where
  | opControl (ids : List Nat) (pos vel kp kd tau : List ℚ)
  | estopCmd (ids : List Nat)
deriving DecidableEq, Repr

/-- Which joint-limit rule fired in `Robot::_check_obs`
(the C++ throws `RobotEStopError` with a per-rule message). -/
inductive ObsTrip where
  | posLimit (name : String)
  | velLower (name : String)
  | velUpper (name : String)
deriving DecidableEq, Repr

/-- The exceptions thrown by `Robot` (robot.hpp):
`RobotEStopError` from the timeout/emergency branch of `check_safety`,
`RobotEStopError` from `_check_obs`, `RobotEStopError` thrown by `estop()`,
and `RobotSetGainsError`. -/
inductive RobotErr where
  | eStopTimeout
  | eStopObs (t : ObsTrip)
  | eStopAction (msg : String)
  | setGainsErr (msg : String)
deriving DecidableEq, Repr

/-- The `_obs` observation frame (pre-sized, reused buffers). -/
structure Obs where
  dof_pos : List ℚ
  dof_vel : List ℚ
  ang_vel : List ℚ
  proj_grav : List ℚ
  last_action : List ℚ
  lin_vel : List ℚ
  height_map : List ℚ
deriving DecidableEq, Repr

/-- The mutable state of a `Robot` object, together with a log `sent` of
every datagram transmitted to a board (new transmissions are appended). -/
structure RobotState where
  cli_disconn_duration_ms : Int
  cli_missed_req : Int
  obs : Obs
  kp : List ℚ
  kd : List ℚ
  gains_set : Bool
  sent : List (Board × BoardCmd)
deriving DecidableEq, Repr

/-- Result of a `Robot` member call: C++ exceptions are modelled as an
error outcome that still carries the object state at the throw point
(member mutations made before the throw persist). -/
inductive RResult (α : Type) where
  | ok (s : RobotState) (val : α)
  | err (s : RobotState) (e : RobotErr)

/-- State carried by an `RResult` (both outcomes carry one). -/
def RResult.state {α : Type} : RResult α → RobotState
  | .ok s _ => s
  | .err s _ => s

/-- Whether the call raised. -/
def RResult.isErr {α : Type} : RResult α → Bool
  | .ok _ _ => false
  | .err _ _ => true

/-- `_last_action_len` -/
def lastActionLen : Nat := 16

/-- `_motor_ids_front` -/
def motorIdsFront : List Nat := [1, 2, 3, 4, 5, 6, 7, 8]

/-- `_motor_ids_rear` -/
def motorIdsRear : List Nat := [9, 10, 11, 12, 13, 14, 15, 16]

/-- `_cli_disconn_timeout_ms` -/
def disconnTimeoutMs : Int := 200

/-- `_joint_names` (pos indices 0..11). -/
def jointNames : List String :=
  ["left_hip_f", "right_hip_f", "left_shoulder_f", "right_shoulder_f",
   "left_leg_f", "right_leg_f",
   "left_hip_r", "right_hip_r", "left_shoulder_r", "right_shoulder_r",
   "left_leg_r", "right_leg_r"]

/-- `_pos_offset` as built in the constructor. -/
def posOffset : List (String × ℚ) :=
  [("left_hip_f", 0), ("right_hip_f", 0),
   ("left_shoulder_f", 0), ("right_shoulder_f", 0),
   ("left_leg_f", 0), ("right_leg_f", 0),
   ("left_hip_r", 0), ("right_hip_r", 0),
   ("left_shoulder_r", 0), ("right_shoulder_r", 0),
   ("left_leg_r", 0), ("right_leg_r", 0)]

/-- `_rel_max_pos` as built in the constructor. -/
def relMaxPos : List (String × ℚ) :=
  [("left_hip_f", 3.14), ("right_hip_f", 3.14),
   ("left_shoulder_f", 3.14), ("right_shoulder_f", 3.14),
   ("left_leg_f", 3.14), ("right_leg_f", 3.14),
   ("left_hip_r", 3.14), ("right_hip_r", 3.14),
   ("left_shoulder_r", 3.14), ("right_shoulder_r", 3.14),
   ("left_leg_r", 3.14), ("right_leg_r", 3.14)]

/-- `_rel_min_pos` as built in the constructor. -/
def relMinPos : List (String × ℚ) :=
  [("left_hip_f", -3.14), ("right_hip_f", -3.14),
   ("left_shoulder_f", -3.14), ("right_shoulder_f", -3.14),
   ("left_leg_f", -3.14), ("right_leg_f", -3.14),
   ("left_hip_r", -3.14), ("right_hip_r", -3.14),
   ("left_shoulder_r", -3.14), ("right_shoulder_r", -3.14),
   ("left_leg_r", -3.14), ("right_leg_r", -3.14)]

/-- Initial observation buffers of the constructor. -/
def initObs : Obs :=
  { dof_pos := List.replicate 12 0
    dof_vel := List.replicate 16 0
    ang_vel := List.replicate 3 0
    proj_grav := List.replicate 3 0
    last_action := List.replicate 16 0
    lin_vel := List.replicate 3 0
    height_map := List.replicate 144 0.6128 }

/-- The `Robot` state right after the constructor returns
(both boards started; nothing transmitted is logged for the start
handshake, which is external `motor_start` traffic). -/
def initRobot : RobotState :=
  { cli_disconn_duration_ms := 0
    cli_missed_req := 0
    obs := initObs
    kp := List.replicate 16 0
    kd := List.replicate 16 0
    gains_set := false
    sent := [] }

/-- `pos_margin` in `_check_obs` (10 deg). -/
def posMargin : ℚ := 0.1745

/-- `vel_margin` in `_check_obs` (20 deg). -/
def velMargin : ℚ := 0.3491

/-- `vel_th` in `_check_obs` (rad/s). -/
def velTh : ℚ := 8.7275

/-- Velocity index used by `_check_obs` for joint `i`
(front 0..5 -> 0..5, rear 6..11 -> 8..13). -/
def velIdx (i : Nat) : Nat := if i < 6 then i else i + 2

/-- Body of the `_check_obs` loop for one joint index `i`. -/
def checkObsAt (o : Obs) (i : Nat) : Option ObsTrip :=
  let name := jointNames.getD i ""
  let pos := o.dof_pos.getD i 0
  let vel := o.dof_vel.getD (velIdx i) 0
  let loPos := (lookupL relMinPos name).getD 0 + posMargin
  let hiPos := (lookupL relMaxPos name).getD 0 - posMargin
  if pos < loPos ∨ pos > hiPos then some (.posLimit name)
  else if pos < loPos + velMargin ∧ vel < -velTh then some (.velLower name)
  else if pos ≥ hiPos - velMargin ∧ vel > velTh then some (.velUpper name)
  else none

/-- The `_check_obs` loop over a list of joint indices, stopping at the
first violation (the C++ throws there). -/
def checkObsList (o : Obs) : List Nat → Option ObsTrip
  | [] => none
  | i :: rest =>
      match checkObsAt o i with
      | some t => some t
      | none => checkObsList o rest

/-- `Robot::_check_obs`: scans joints 0..11; `some` means the C++ throws
`RobotEStopError` for that joint/rule. -/
def checkObs (o : Obs) : Option ObsTrip := checkObsList o (List.range 12)

/-- `Robot::check_safety`.  The boolean inputs are the results
`(disconn_flag, emergency_flag)` of `_check_status` applied to the two
boards' status strings (transport-supplied data, external to src/). -/
def check_safety (disF emgF disR emgR : Bool) (s : RobotState) : RResult Unit :=
  let disconnFlag := disF || disR
  let emergencyFlag := emgF || emgR
  let dur := if disconnFlag then s.cli_disconn_duration_ms + 20 else 0
  let s' := { s with cli_disconn_duration_ms := dur }
  if emergencyFlag = true ∨ max dur (s.cli_missed_req * 20) ≥ disconnTimeoutMs then
    .err s' .eStopTimeout
  else
    match checkObs s'.obs with
    | some t => .err s' (.eStopObs t)
    | none => .ok s' ()

/-- `Robot::set_gains`. -/
def set_gains (kp kd : List ℚ) (s : RobotState) : RResult Unit :=
  if kp.length ≠ lastActionLen then
    .err s (.setGainsErr "kp length mismatch for the robot.")
  else if kd.length ≠ lastActionLen then
    .err s (.setGainsErr "kd length mismatch for the robot.")
  else if kp.getD 6 0 ≠ 0 ∨ kp.getD 7 0 ≠ 0 then
    .err s (.setGainsErr "Wheel motor kp must be zero for indices 6 and 7.")
  else if kp.getD 14 0 ≠ 0 ∨ kp.getD 15 0 ≠ 0 then
    .err s (.setGainsErr "Wheel motor kp must be zero for indices 14 and 15.")
  else if kp.any (fun v => decide (v < 0)) then
    .err s (.setGainsErr "kp must be non-negative.")
  else if kd.any (fun v => decide (v < 0)) then
    .err s (.setGainsErr "kd must be non-negative.")
  else
    .ok { s with kp := kp, kd := kd, gains_set := true } ()

/-- Effect of `Robot::estop`'s retry loop: the round of `motor_estop`
datagrams that both boards acknowledge (the loop repeats until both
succeed, then the exception is thrown). -/
def estopSend (s : RobotState) : RobotState :=
  { s with sent := s.sent ++
      [(Board.front, BoardCmd.estopCmd motorIdsFront),
       (Board.rear, BoardCmd.estopCmd motorIdsRear)] }

/-- `Robot::estop`: transmits the stop round, then throws. -/
def estop (msg : String) (s : RobotState) : RResult Unit :=
  .err (estopSend s) (.eStopAction msg)

/-- Leg-position channel predicate of the `do_action` mapping
(0..5 and 8..13 are leg joints; 6,7,14,15 are wheels). -/
def isPosIdx (i : Nat) : Bool := decide (i < 6) || (decide (8 ≤ i) && decide (i < 14))

/-- `_joint_names` index for action channel `i` (legs only). -/
def jidx (i : Nat) : Nat := if i < 6 then i else i - 2

/-- `Robot::do_action`.  The four trailing booleans are the
`_check_status` results for the safety re-check at the end of the call. -/
def do_action (action : List ℚ) (torque_ctrl : Bool)
    (disF emgF disR emgR : Bool) (s : RobotState) : RResult Unit :=
  if s.gains_set = false then
    .err s (.setGainsErr "Robot's kp and kd must be provided before do_action.")
  else if action.length ≠ lastActionLen then
    estop "action length mismatch." s
  else
    let zeros := List.replicate lastActionLen (0 : ℚ)
    let pos := if torque_ctrl then zeros else
      (List.range lastActionLen).map (fun i =>
        if isPosIdx i then
          action.getD i 0 - (lookupL posOffset (jointNames.getD (jidx i) "")).getD 0
        else 0)
    let vel := if torque_ctrl then zeros else
      (List.range lastActionLen).map (fun i =>
        if isPosIdx i then 0 else action.getD i 0)
    let kp := if torque_ctrl then zeros else
      (List.range lastActionLen).map (fun i => s.kp.getD i 0)
    let kd := if torque_ctrl then zeros else
      (List.range lastActionLen).map (fun i => s.kd.getD i 0)
    let tau := if torque_ctrl then action else zeros
    let s1 := { s with sent := s.sent ++
      [(Board.front, BoardCmd.opControl motorIdsFront
          (sliceL pos 0 8) (sliceL vel 0 8) (sliceL kp 0 8)
          (sliceL kd 0 8) (sliceL tau 0 8)),
       (Board.rear, BoardCmd.opControl motorIdsRear
          (sliceL pos 8 8) (sliceL vel 8 8) (sliceL kp 8 8)
          (sliceL kd 8 8) (sliceL tau 8 8))] }
    let s2 := { s1 with obs := { s1.obs with last_action := action } }
    check_safety disF emgF disR emgR s2

end robot

namespace rl

open SdkModel

/-- The per-mode data that `RL::set_mode` reads from a registered mode
object (`mode.hpp` / `Mode` exposes exactly these attributes).  The
policy is the mode's `inference` member, abstracted as a pure function
(the network evaluation lives in the external ONNX runtime). -/
structure RLMode where
  id : Int
  cmd_vector_length : Nat
  stacked_obs_order : List String
  non_stacked_obs_order : List String
  stack_size : Int
  policy : List ℚ → List ℚ
  action_scale : List ℚ
  cmd_scale : List ℚ
  obs_scale : List (String × List ℚ)

/-- Errors thrown by `rl::RL` members: `std::runtime_error` for unknown
observation keys / unset mode / short action scale, and the
`py::value_error` raised for a wrong-length `scaled_last_action`. -/
inductive RLErr where
  | unknownObs (key : String)
  | modeNotSet
  | valueErr (msg : String)
  | actionScaleShort
deriving DecidableEq, Repr

/-- The mutable state of an `rl::RL` object (member variables that the
embedded member calls read or write). -/
structure RLState where
  obs_to_length : List (String × Nat)
  mode : Option RLMode
  modes : List RLMode
  single_frame : List ℚ
  single_frame_len : Nat
  state_ : List ℚ
  last_action : List ℚ
  scaled_action : List ℚ
  cached_policy : List ℚ → List ℚ
  cached_action_scale : List ℚ
  last_action_len : Nat
  cached_stacked_order : List String
  cached_non_stacked_order : List String
  cached_stack_size : Int
  cached_cmd_scale : List ℚ
  cached_obs_scale_map : List (String × List ℚ)

/-- Result of an `rl::RL` member call; an error carries the object state
at the throw point (member mutations made before the throw persist). -/
inductive RLRes (α : Type) where
  | ok (s : RLState) (val : α)
  | err (s : RLState) (e : RLErr)

/-- State carried by an `RLRes`. -/
def RLRes.state {α : Type} : RLRes α → RLState
  | .ok s _ => s
  | .err s _ => s

/-- Whether the call raised. -/
def RLRes.isErr {α : Type} : RLRes α → Bool
  | .ok _ _ => false
  | .err _ _ => true

/-- `obs_to_length_` as initialised in the `RL` constructor. -/
def initObsToLength : List (String × Nat) :=
  [("dof_pos", 12), ("dof_vel", 16), ("lin_vel", 3), ("ang_vel", 3),
   ("proj_grav", 3), ("last_action", 16), ("height_map", 144)]

/-- The `RL` state right after the constructor. -/
def initRL : RLState :=
  { obs_to_length := initObsToLength
    mode := none
    modes := []
    single_frame := []
    single_frame_len := 0
    state_ := []
    last_action := List.replicate 16 0
    scaled_action := List.replicate 16 0
    cached_policy := fun _ => []
    cached_action_scale := []
    last_action_len := 16
    cached_stacked_order := []
    cached_non_stacked_order := []
    cached_stack_size := 1
    cached_cmd_scale := []
    cached_obs_scale_map := [] }

/-- `RL::get_obs_len_`: length lookup, throwing on an unknown key. -/
def getObsLen (s : RLState) (key : String) : Except RLErr Nat :=
  match lookupL s.obs_to_length key with
  | some n => .ok n
  | none => .error (.unknownObs key)

/-- Sum of channel lengths over a key list (the accumulation loops in
`set_mode`), propagating the unknown-key error of `get_obs_len_`. -/
def sumLens (s : RLState) : List String → Except RLErr Nat
  | [] => .ok 0
  | k :: rest =>
      match getObsLen s k with
      | .error e => .error e
      | .ok n =>
          match sumLens s rest with
          | .error e => .error e
          | .ok m => .ok (n + m)

/-- `RL::get_obs_scale_`: the cached scale vector if long enough,
otherwise a ones-padded buffer carrying the available prefix. -/
def getObsScale (s : RLState) (key : String) (len : Nat) : List ℚ :=
  match lookupL s.cached_obs_scale_map key with
  | some v => if len ≤ v.length then v else v ++ List.replicate (len - v.length) 1
  | none => List.replicate len 1

/-- `RL::add_mode`: replace in place on an existing id, else append. -/
def add_mode (m : RLMode) (s : RLState) : RLState :=
  let rec go : List RLMode → Option (List RLMode)
    | [] => none
    | m' :: rest =>
        if m'.id = m.id then some (m :: rest)
        else match go rest with
          | some rest' => some (m' :: rest')
          | none => none
  match go s.modes with
  | some ms => { s with modes := ms }
  | none => { s with modes := s.modes ++ [m] }

/-- `RL::set_mode`.  A `none` id or an unregistered id is a silent no-op;
a registered id rebuilds every cached layout field in the source's order
(mutations made before a thrown unknown-key error persist). -/
def set_mode (mode_id : Option Int) (s : RLState) : RLRes Unit :=
  match mode_id with
  | none => .ok s ()
  | some mid =>
      match s.modes.find? (fun m => m.id == mid) with
      | none => .ok s ()
      | some m =>
          let s := { s with obs_to_length := insertL s.obs_to_length "command" m.cmd_vector_length }
          let s := { s with cached_stacked_order := m.stacked_obs_order }
          match sumLens s m.stacked_obs_order with
          | .error e => .err s e
          | .ok singleLen =>
          let s := { s with single_frame_len := singleLen,
                            single_frame := List.replicate singleLen 0,
                            cached_stack_size := m.stack_size }
          let s := { s with cached_non_stacked_order := m.non_stacked_obs_order }
          match sumLens s m.non_stacked_obs_order with
          | .error e => .err s e
          | .ok nonStackedLen =>
          let stateLen := singleLen * m.stack_size.toNat + nonStackedLen
          let s := { s with state_ := List.replicate stateLen 0,
                            last_action := List.replicate s.last_action_len 0,
                            scaled_action := List.replicate s.last_action_len 0,
                            mode := some m,
                            cached_policy := m.policy,
                            cached_action_scale := m.action_scale,
                            cached_cmd_scale := m.cmd_scale,
                            cached_obs_scale_map := m.obs_scale }
          if m.action_scale.length < s.last_action_len then
            .err s .actionScaleShort
          else
            .ok s ()

/-- The `cmd` dictionary passed to `build_state`: an optional `mode_id`
entry (absent, or present with `None`, are both modelled as `none`) and
an optional `cmd_vector` entry. -/
structure CmdDict where
  mode_id : Option Int
  cmd_vector : Option (List ℚ)

/-- Channel source resolution of the `build_state` loops: `none` is the
missing-channel case (`obs_obj.is_none() && key != "last_action"`). -/
def srcOf (s : RLState) (obs : List (String × List ℚ)) (cmd : CmdDict)
    (key : String) : Option (List ℚ) :=
  if key = "command" then cmd.cmd_vector
  else if key = "last_action" then some s.last_action
  else lookupL obs key

/-- Scale vector used by the `build_state` loops for a channel. -/
def scaleOf (s : RLState) (key : String) (len : Nat) : List ℚ :=
  if key = "command" then s.cached_cmd_scale else getObsScale s key len

/-- The stacked-region loop of `build_state` (step 1): builds the single
frame in `single_frame_`, holding the previous slot-0 values
(`single_frame_[i] = state_[i]`) for missing channels. -/
def stackedLoop (obs : List (String × List ℚ)) (cmd : CmdDict) :
    List String → Nat → RLState → RLRes Nat
  | [], i, s => .ok s i
  | key :: rest, i, s =>
      match getObsLen s key with
      | .error e => .err s e
      | .ok len =>
          let scale := scaleOf s key len
          match srcOf s obs cmd key with
          | none =>
              let sf := writeSeg s.single_frame i (sliceL s.state_ i len)
              stackedLoop obs cmd rest (i + len) { s with single_frame := sf }
          | some sv =>
              let vals := (List.range len).map (fun j => sv.getD j 0 * scale.getD j 1)
              let sf := writeSeg s.single_frame i vals
              stackedLoop obs cmd rest (i + len) { s with single_frame := sf }

/-- One `std::copy` of the stack shift: slot `k` gets slot `k-1`. -/
def copySlot (st : List ℚ) (L k : Nat) : List ℚ :=
  writeSeg st (k * L) (sliceL st ((k - 1) * L) L)

/-- The stack-shift loop (step 2): `for (k = S-1; k > 0; --k)`;
the argument is the current loop counter `k`. -/
def shiftFrom (L : Nat) : Nat → List ℚ → List ℚ
  | 0, st => st
  | k + 1, st => shiftFrom L k (copySlot st L (k + 1))

/-- The non-stacked loop of `build_state` (step 3): writes each present
channel at the running base offset and skips missing channels. -/
def nonStackedLoop (obs : List (String × List ℚ)) (cmd : CmdDict) :
    List String → Nat → RLState → RLRes Unit
  | [], _, s => .ok s ()
  | key :: rest, base, s =>
      match getObsLen s key with
      | .error e => .err s e
      | .ok len =>
          let scale := scaleOf s key len
          match srcOf s obs cmd key with
          | none => nonStackedLoop obs cmd rest (base + len) s
          | some sv =>
              let vals := (List.range len).map (fun j => sv.getD j 0 * scale.getD j 1)
              let st := writeSeg s.state_ base vals
              nonStackedLoop obs cmd rest (base + len) { s with state_ := st }

/-- `RL::build_state`. -/
def build_state (obs : List (String × List ℚ)) (cmd : CmdDict)
    (scaled_last_action : Option (List ℚ)) (s : RLState) : RLRes (List ℚ) :=
  if s.mode.isNone then .err s .modeNotSet
  else
    match set_mode cmd.mode_id s with
    | .err s' e => .err s' e
    | .ok s () =>
    match
      match scaled_last_action with
      | none => RLRes.ok s ()
      | some v =>
          if v.length ≠ s.last_action_len then
            RLRes.err s (.valueErr "scaled_last_action length mismatch")
          else RLRes.ok { s with last_action := v } ()
    with
    | .err s' e => .err s' e
    | .ok s () =>
    match stackedLoop obs cmd s.cached_stacked_order 0 s with
    | .err s' e => .err s' e
    | .ok s _ =>
    let L := s.single_frame_len
    let S := s.cached_stack_size
    let st1 := if S > 1 then shiftFrom L (S - 1).toNat s.state_ else s.state_
    let st2 := writeSeg st1 0 s.single_frame
    let s := { s with state_ := st2 }
    match nonStackedLoop obs cmd s.cached_non_stacked_order (L * S.toNat) s with
    | .err s' e => .err s' e
    | .ok s () => .ok s s.state_

/-- `RL::select_action`. -/
def select_action (state : List ℚ) (s : RLState) : RLRes (List ℚ) :=
  if s.mode.isNone then .err s .modeNotSet
  else
    let action := s.cached_policy state
    let scaled := (List.range s.last_action_len).map
      (fun i => action.getD i 0 * s.cached_action_scale.getD i 0)
    .ok { s with scaled_action := scaled, last_action := action } scaled

end rl

namespace onnxpolicy

open SdkModel

/-- `clip_unit`: clamp to `[-1, 1]`. -/
def clip_unit (x : ℚ) : ℚ :=
  if x < -1 then -1
  else if x > 1 then 1
  else x

/-- `value_or`: ONNX marks dynamic dimensions as `-1`/`0`; any
non-positive value falls back. -/
def value_or (x fallback : Int) : Int := if x > 0 then x else fallback

/-- A tensor produced by an ONNX-runtime `Run` call: the `IsTensor`
flag, the declared shape, and the flattened element data. -/
structure OrtTensor where
  isTensor : Bool
  shape : List Int
  data : List ℚ

/-- The introspectable surface of an `Ort::Session` loaded from an
artifact: declared inputs and outputs as `(name, shape)` pairs, plus the
network evaluation itself, abstract at the runtime boundary.
`runOne` is `Run` requesting only the first output (the MLP path, which
always yields that single tensor's data); `runAll` is `Run` requesting
every declared output given `(state, hidden, cell)` — the remaining
inputs are bound to constant zero buffers, so they are no arguments. -/
structure OrtSession where
  inputs : List (String × List Int)
  outputs : List (String × List Int)
  runOne : List ℚ → List ℚ
  runAll : List ℚ → List ℚ → List ℚ → List OrtTensor

/-- A constructed `MLPPolicy`: the session plus the cached feature
width `state_dim_`. -/
structure MLPPolicy where
  session : OrtSession
  state_dim : Int

/-- The `state_dim_` computation of the `MLPPolicy` constructor: the last
declared dimension of input 0, with an empty shape or a dynamic (`<= 0`)
dimension resolving to `-1`. -/
def resolvedStateDim (sess : OrtSession) : Int :=
  let inShape := (sess.inputs.getD 0 ("", [])).2
  if inShape = [] then -1 else value_or (inShape.getLastD (-1)) (-1)

/-- `MLPPolicy::MLPPolicy` (construction from a loaded session):
fails when the artifact declares zero inputs or zero outputs, or when
the last input dimension does not resolve to a fixed positive size. -/
def MLPPolicy.mk' (sess : OrtSession) : Except String MLPPolicy :=
  if sess.inputs.length < 1 then .error "MLPPolicy: model has no inputs."
  else if sess.outputs.length < 1 then .error "MLPPolicy: model has no outputs."
  else
    if resolvedStateDim sess ≤ 0 then
      .error "ONNX Error: dynamic or unknown state dimension detected."
    else
      .ok { session := sess, state_dim := resolvedStateDim sess }

/-- `MLPPolicy::inference`: length-checks the state, runs the session,
clamps every output element to `[-1, 1]`. -/
def MLPPolicy.inference (p : MLPPolicy) (state : List ℚ) : Except String (List ℚ) :=
  if p.state_dim > 0 ∧ (state.length : Int) ≠ p.state_dim then
    .error "MLPPolicy: state size mismatch"
  else
    .ok ((p.session.runOne state).map clip_unit)

/-- A constructed `LSTMPolicy`: the session, the cached output names,
the resolved hidden/cell sizes and feature width, and the persistent
hidden/cell buffers. -/
structure LSTMPolicy where
  session : OrtSession
  output_names : List String
  h_dim : Int
  c_dim : Int
  state_dim : Int
  policy_h_in : List ℚ
  policy_c_in : List ℚ

/-- Hidden-state update-output alias candidates (ordered, defaults last). -/
def hOutNames : List String := ["h_out", "hn", "hidden", "h", "output_1", "output1"]

/-- Cell-state update-output alias candidates (ordered, defaults last). -/
def cOutNames : List String := ["c_out", "cn", "cell", "c", "output_2", "output2"]

/-- The `out_idx` map of `update_hidden_from_outputs`: name-to-index,
built by ascending insertion so a duplicated name keeps its last index. -/
def lastIdxOf (names : List String) (nm : String) : Option Nat :=
  let rec go : List String → Nat → Option Nat → Option Nat
    | [], _, acc => acc
    | n :: rest, i, acc => go rest (i + 1) (if n = nm then some i else acc)
  go names 0 none

/-- Acceptance test of one candidate output in `try_update`: it must be
a tensor of rank 3 whose last dimension (dynamic treated as expected)
equals the expected size. -/
def tensorMatches (t : OrtTensor) (expectLast : Int) : Bool :=
  t.isTensor && decide (t.shape.length = 3) &&
    (decide (expectLast ≤ 0) || decide (value_or (t.shape.getLastD expectLast) expectLast = expectLast))

/-- The candidate scan of `try_update`: the data of the first candidate
name that is a declared output and passes `tensorMatches`, else `none`. -/
def resolveUpdate (outNames : List String) (outs : List OrtTensor)
    (expectLast : Int) : List String → Option (List ℚ)
  | [] => none
  | nm :: rest =>
      match lastIdxOf outNames nm with
      | none => resolveUpdate outNames outs expectLast rest
      | some i =>
          let t := outs.getD i { isTensor := false, shape := [], data := [] }
          if tensorMatches t expectLast then some t.data
          else resolveUpdate outNames outs expectLast rest

/-- `LSTMPolicy::update_hidden_from_outputs`: copy matched update
outputs into the hidden/cell buffers; a buffer with no matching output
is left unchanged. -/
def update_hidden_from_outputs (p : LSTMPolicy) (outs : List OrtTensor) : LSTMPolicy :=
  let p1 :=
    match resolveUpdate p.output_names outs p.h_dim hOutNames with
    | some d => { p with policy_h_in := d }
    | none => p
  match resolveUpdate p1.output_names outs p1.c_dim cOutNames with
  | some d => { p1 with policy_c_in := d }
  | none => p1

/-- `LSTMPolicy::inference`: length-check, run the session on
`(state, hidden, cell)`, update the hidden/cell buffers from matched
outputs, clamp the first output as the action.  The error result
carries the policy state at the throw point (the hidden/cell update
happens before the first-output tensor check). -/
def LSTMPolicy.inference (p : LSTMPolicy) (state : List ℚ) :
    Except (String × LSTMPolicy) (List ℚ × LSTMPolicy) :=
  if p.state_dim > 0 ∧ (state.length : Int) ≠ p.state_dim then
    .error ("LSTMPolicy: state size mismatch", p)
  else
    let outs := p.session.runAll state p.policy_h_in p.policy_c_in
    if outs.isEmpty then .error ("LSTMPolicy: no outputs from session.", p)
    else
      let p' := update_hidden_from_outputs p outs
      let out0 := outs.getD 0 { isTensor := false, shape := [], data := [] }
      if out0.isTensor = false then
        .error ("LSTMPolicy: first output is not a tensor.", p')
      else
        .ok (out0.data.map clip_unit, p')

end onnxpolicy

namespace mode

open SdkModel

/-- `get_obs_to_length_map()` from mode.hpp. -/
def obsToLengthMap : List (String × Nat) :=
  [("dof_pos", 12), ("dof_vel", 16), ("lin_vel", 3), ("ang_vel", 3),
   ("proj_grav", 3), ("last_action", 16), ("height_map", 144)]

/-- Errors of `Mode` construction: `ModeConfigError` and the
`py::key_error` thrown for an unknown observation key. -/
inductive ModeErr where
  | configErr (msg : String)
  | keyErr (key : String)
deriving DecidableEq, Repr

/-- The configuration fields of a `Mode` after the scalar/dict/type
checks of the constructor (which are Python-type-level and precede the
parts embedded here), with the policy already instantiated as a pure
inference function that may fail. -/
structure ModeCfg where
  id : Int
  stacked_obs_order : List String
  non_stacked_obs_order : List String
  stack_size : Int
  cmd_vector_length : Int
  policy : List ℚ → Except String (List ℚ)

/-- A successfully constructed `Mode` (fields read downstream). -/
structure Mode where
  id : Int
  stacked_obs_order : List String
  non_stacked_obs_order : List String
  stack_size : Int
  cmd_vector_length : Int
  obs_to_length : List (String × Nat)
  policy : List ℚ → Except String (List ℚ)

/-- The unknown-observation-key validation (`validate_and_norm_obs`),
applied to each key of both channel orders ("command" is exempt). -/
def validateObsKeys : List String → Except ModeErr Unit
  | [] => .ok ()
  | k :: rest =>
      if k = "command" then validateObsKeys rest
      else
        match lookupL obsToLengthMap k with
        | some _ => validateObsKeys rest
        | none => .error (.keyErr k)

/-- Sum of declared lengths over a key list using a given length map
(the `state_len` accumulation in the constructor; lookups never miss,
the orders having been validated, so a lookup defaults to 0). -/
def sumObsLens (m : List (String × Nat)) : List String → Nat
  | [] => 0
  | k :: rest => (lookupL m k).getD 0 + sumObsLens m rest

/-- The `obs_to_length` map after `obs_to_length["command"] = cmd_vector_length`
in the constructor's validation tail. -/
def lenMapOf (cfg : ModeCfg) : List (String × Nat) :=
  insertL obsToLengthMap "command" cfg.cmd_vector_length.toNat

/-- The `state_len` computed by the constructor's validation tail:
sum of stacked channel lengths times the stack depth, plus the sum of
non-stacked channel lengths. -/
def layoutLen (cfg : ModeCfg) : Nat :=
  sumObsLens (lenMapOf cfg) cfg.stacked_obs_order * cfg.stack_size.toNat
    + sumObsLens (lenMapOf cfg) cfg.non_stacked_obs_order

/-- `Mode::Mode`, embedded from the `id` range check onward, with the
Python-type normalisation, filesystem probing of `policy_path`, and
policy-class dispatch elided at their external boundaries (the policy
argument stands for the already-instantiated `MLPPolicy`/`LSTMPolicy`
and its `inference`).  The tail (the cited obs-and-policy validation)
computes the layout length, runs one dummy inference on an all-zero
state of that length, and requires its output length to equal the
`last_action` length. -/
def Mode.construct (cfg : ModeCfg) : Except ModeErr Mode :=
  if cfg.id < 1 ∨ cfg.id > 16 then
    .error (.configErr "id out of range")
  else if cfg.cmd_vector_length < 0 then
    .error (.configErr "cmd_vector_length must be >= 0")
  else
    match validateObsKeys cfg.stacked_obs_order with
    | .error e => .error e
    | .ok () =>
    match validateObsKeys cfg.non_stacked_obs_order with
    | .error e => .error e
    | .ok () =>
    if cfg.stack_size < 1 then
      .error (.configErr "stack_size must be >= 1")
    else
      let lenMap := lenMapOf cfg
      match cfg.policy (List.replicate (layoutLen cfg) 0) with
      | .error _ => .error (.configErr "Policy inference failed.")
      | .ok out =>
          if out.length ≠ (lookupL lenMap "last_action").getD 0 then
            .error (.configErr "Policy inference output length mismatch")
          else
            .ok { id := cfg.id
                  stacked_obs_order := cfg.stacked_obs_order
                  non_stacked_obs_order := cfg.non_stacked_obs_order
                  stack_size := cfg.stack_size
                  cmd_vector_length := cfg.cmd_vector_length
                  obs_to_length := lenMap
                  policy := cfg.policy }

end mode

/-!  Statement-side definitions: derived quantities the theorems speak
about, plus the concrete states used by witnesses and counterexamples. -/

namespace robot

open SdkModel

/-- The declared lower limit plus safety margin for joint `i`
(`lo_pos` in `_check_obs`). -/
def loLimit (i : Nat) : ℚ :=
  (lookupL relMinPos (jointNames.getD i "")).getD 0 + posMargin

/-- An observation frame probing one joint: every reading is zero except
joint `i`, whose position is `p` and whose observed velocity is `v`. -/
def probeObs (i : Nat) (p v : ℚ) : Obs :=
  { initObs with
      dof_pos := (List.replicate 12 0).set i p
      dof_vel := (List.replicate 16 0).set (velIdx i) v }

/-- A robot state whose retained observation violates the lower position
limit on joint 0 (`dof_pos[0] = -3.14 < -3.14 + 0.1745`). -/
def badObsRobot : RobotState :=
  { initRobot with obs := probeObs 0 (-3.14) 0 }

/-- A robot state with gains set (as after a successful `set_gains`). -/
def gainedRobot : RobotState :=
  { initRobot with
      kp := List.replicate 16 0, kd := List.replicate 16 0, gains_set := true }

end robot

namespace rl

open SdkModel

/-- Declared length of a channel in the state's length map (statement
side; the loops themselves throw on a missing key). -/
def lenD (s : RLState) (key : String) : Nat :=
  (lookupL s.obs_to_length key).getD 0

/-- Sum of declared channel lengths over a key order. -/
def sumLensD (s : RLState) : List String → Nat
  | [] => 0
  | k :: rest => lenD s k + sumLensD s rest

/-- The per-channel segments the stacked loop writes, starting at offset
`i`: a present channel contributes its scaled values, a missing channel
the held slice of the previous slot-0 region. -/
def frameSegs (s : RLState) (obs : List (String × List ℚ)) (cmd : CmdDict) :
    List String → Nat → List (List ℚ)
  | [], _ => []
  | key :: rest, i =>
      let len := lenD s key
      let seg :=
        match srcOf s obs cmd key with
        | none => sliceL s.state_ i len
        | some sv => (List.range len).map (fun j => sv.getD j 0 * (scaleOf s key len).getD j 1)
      seg :: frameSegs s obs cmd rest (i + len)

/-- The single frame built by step 1 of `build_state`. -/
def builtFrame (s : RLState) (obs : List (String × List ℚ)) (cmd : CmdDict) : List ℚ :=
  (frameSegs s obs cmd s.cached_stacked_order 0).flatten

/-- The invariant a configured `RL` state keeps across `build_state`
calls: the mode is set, layout caches are consistent with the length
map, and the state buffer is long enough for the stacked region. -/
def BuildInv (s : RLState) : Prop :=
  s.mode.isSome = true
  ∧ (∀ k ∈ s.cached_stacked_order, (lookupL s.obs_to_length k).isSome = true)
  ∧ (∀ k ∈ s.cached_non_stacked_order, (lookupL s.obs_to_length k).isSome = true)
  ∧ sumLensD s s.cached_stacked_order = s.single_frame_len
  ∧ s.single_frame.length = s.single_frame_len
  ∧ 1 ≤ s.cached_stack_size
  ∧ s.single_frame_len * s.cached_stack_size.toNat ≤ s.state_.length

/-- `[f (t-1), f (t-2), ..., f (t-n)]`: the `n` most recent frames before
time `t`, newest first (the layout the claim states for the stacked
region). -/
def recentFrames (f : Nat → List ℚ) : Nat → Nat → List (List ℚ)
  | _, 0 => []
  | t, n + 1 => f (t - 1) :: recentFrames f (t - 1) n

/-- A small registered mode for concrete runs: one stacked channel
`ang_vel` (length 3), no non-stacked channels, stack depth 2. -/
def wMode : RLMode :=
  { id := 1
    cmd_vector_length := 0
    stacked_obs_order := ["ang_vel"]
    non_stacked_obs_order := []
    stack_size := 2
    policy := fun _ => List.replicate 16 0
    action_scale := List.replicate 16 1
    cmd_scale := []
    obs_scale := [] }

/-- The `RL` state after registering `wMode` and selecting it. -/
def wRL : RLState :=
  { initRL with
      mode := some wMode
      modes := [wMode]
      single_frame := List.replicate 3 0
      single_frame_len := 3
      state_ := List.replicate 6 0
      cached_policy := wMode.policy
      cached_action_scale := wMode.action_scale
      cached_stacked_order := ["ang_vel"]
      cached_non_stacked_order := []
      cached_stack_size := 2
      cached_cmd_scale := []
      cached_obs_scale_map := [] }

/-- Concrete observation stream for the stacking witness: tick `t`
reports `ang_vel = [t+1, 0, 0]`. -/
def wObs (t : Nat) : List (String × List ℚ) := [("ang_vel", [(t : ℚ) + 1, 0, 0])]

/-- Concrete command stream for the stacking witness: empty dict. -/
def wCmd (_ : Nat) : CmdDict := { mode_id := none, cmd_vector := none }

/-- The caches and buffers of an `RL` state that `build_state` leaves
untouched (everything except `single_frame` and `state_`). -/
def cachesEq (s s0 : RLState) : Prop :=
  s.obs_to_length = s0.obs_to_length
  ∧ s.mode = s0.mode
  ∧ s.single_frame_len = s0.single_frame_len
  ∧ s.last_action = s0.last_action
  ∧ s.cached_stacked_order = s0.cached_stacked_order
  ∧ s.cached_non_stacked_order = s0.cached_non_stacked_order
  ∧ s.cached_stack_size = s0.cached_stack_size
  ∧ s.cached_cmd_scale = s0.cached_cmd_scale
  ∧ s.cached_obs_scale_map = s0.cached_obs_scale_map

/-- The state sequence produced by repeated `build_state` calls
(statement side, for concrete runs). -/
def iterBuild (obs : Nat → List (String × List ℚ)) (cmd : Nat → CmdDict)
    (s0 : RLState) : Nat → RLState
  | 0 => s0
  | t + 1 => (build_state (obs t) (cmd t) none (iterBuild obs cmd s0 t)).state

/-- A small mode/state pair for the missing-channel witness: stacked
`ang_vel` then `proj_grav` (frame length 6, depth 1), non-stacked
`lin_vel`; the state buffer is `[10,20,30,40,50,60,70,80,90]`. -/
def w4RL : RLState :=
  { initRL with
      mode := some wMode
      modes := [wMode]
      single_frame := List.replicate 6 0
      single_frame_len := 6
      state_ := [10, 20, 30, 40, 50, 60, 70, 80, 90]
      cached_policy := wMode.policy
      cached_action_scale := wMode.action_scale
      cached_stacked_order := ["ang_vel", "proj_grav"]
      cached_non_stacked_order := ["lin_vel"]
      cached_stack_size := 1
      cached_cmd_scale := []
      cached_obs_scale_map := [] }

/-- Observation dict for the missing-channel witness: only `ang_vel` is
reported; `proj_grav` (stacked) and `lin_vel` (non-stacked) are absent. -/
def wObs4 : List (String × List ℚ) := [("ang_vel", [1, 2, 3])]

end rl

namespace onnxpolicy

/-- Default tensor used for out-of-range output indexing. -/
def defaultTensor : OrtTensor := { isTensor := false, shape := [], data := [] }

/-- A well-formed feedforward session: one input of shape `[1, 10]`, one
output; `Run` returns constant `2`s (exercising the clamp). -/
def wSess : OrtSession :=
  { inputs := [("obs", [1, 10])]
    outputs := [("actions", [1, 16])]
    runOne := fun _ => List.replicate 16 2
    runAll := fun _ _ _ => [] }

/-- A session declaring no inputs at all. -/
def wSessNoInputs : OrtSession :=
  { inputs := []
    outputs := [("actions", [1, 16])]
    runOne := fun _ => []
    runAll := fun _ _ _ => [] }

/-- A concrete recurrent policy state for the hidden-update witness. -/
def wLSTM : LSTMPolicy :=
  { session :=
      { inputs := [("obs", [1, 4]), ("h0", [1, 1, 2]), ("c0", [1, 1, 2])]
        outputs := [("action", [1, 16]), ("h", [1, 1, 2]), ("c", [1, 1, 2])]
        runOne := fun _ => []
        runAll := fun _ _ _ => [] }
    output_names := ["action", "h", "c"]
    h_dim := 2
    c_dim := 2
    state_dim := 4
    policy_h_in := [0, 0]
    policy_c_in := [0, 0] }

/-- Outputs of one recurrent `Run` for the witness: an action tensor, a
rank-3 hidden update `[5, 6]`, and a cell output of the wrong rank (so
the cell buffer must be left unchanged). -/
def wOuts : List OrtTensor :=
  [{ isTensor := true, shape := [1, 16], data := List.replicate 16 0 },
   { isTensor := true, shape := [1, 1, 2], data := [5, 6] },
   { isTensor := true, shape := [1, 2], data := [7, 8] }]

end onnxpolicy

namespace mode

/-- A profile whose policy accepts any state and returns 16 zeros. -/
def wCfg : ModeCfg :=
  { id := 1
    stacked_obs_order := ["ang_vel"]
    non_stacked_obs_order := ["lin_vel"]
    stack_size := 2
    cmd_vector_length := 0
    policy := fun _ => .ok (List.replicate 16 0) }

/-- The same profile with a policy whose inference always fails. -/
def wCfgFail : ModeCfg :=
  { wCfg with policy := fun _ => .error "inference failed" }

/-- The same profile with a policy returning a wrong-length action. -/
def wCfgShort : ModeCfg :=
  { wCfg with policy := fun _ => .ok [1, 2, 3] }

end mode

/-!  Supporting lemmas about the buffer-write primitives. -/

namespace SdkModel

theorem writeSeg_length (vs : List ℚ) (xs : List ℚ) (i : Nat) :
    (writeSeg xs i vs).length = xs.length := by
  induction vs generalizing xs i with
  | nil => rfl
  | cons v vs ih => rw [writeSeg, ih]; simp

theorem take_set_of_le {α : Type} (a : α) {n m : Nat} (l : List α) (h : m ≤ n) :
    (l.set n a).take m = l.take m := by
  apply List.ext_getElem?
  intro k
  by_cases hk : k < m
  · rw [List.getElem?_take_of_lt hk, List.getElem?_take_of_lt hk,
      List.getElem?_set_ne (by omega)]
  · rw [List.getElem?_take, List.getElem?_take, if_neg hk, if_neg hk]

theorem take_writeSeg (vs : List ℚ) (xs : List ℚ) (i b : Nat) (h : b ≤ i) :
    (writeSeg xs i vs).take b = xs.take b := by
  induction vs generalizing xs i with
  | nil => rfl
  | cons v vs ih =>
      rw [writeSeg, ih _ _ (by omega), take_set_of_le _ _ h]

theorem drop_writeSeg (vs : List ℚ) (xs : List ℚ) (i b : Nat)
    (h : i + vs.length ≤ b) :
    (writeSeg xs i vs).drop b = xs.drop b := by
  induction vs generalizing xs i with
  | nil => rfl
  | cons v vs ih =>
      rw [writeSeg, ih _ _ (by simp at h ⊢; omega),
        List.drop_set_of_lt _ _ (by simp at h; omega)]

theorem set_take_succ (xs : List ℚ) (i : Nat) (v : ℚ) (h : i < xs.length) :
    (xs.set i v).take (i + 1) = xs.take i ++ [v] := by
  rw [List.set_eq_take_append_cons_drop, if_pos h, List.take_append_eq_append_take]
  have hl : (xs.take i).length = i := by simp; omega
  rw [List.take_of_length_le (by omega), hl]
  have h1 : i + 1 - i = 1 := by omega
  rw [h1]
  rfl

theorem writeSeg_eq_splice (vs : List ℚ) (xs : List ℚ) (i : Nat)
    (h : i + vs.length ≤ xs.length) :
    writeSeg xs i vs = xs.take i ++ vs ++ xs.drop (i + vs.length) := by
  induction vs generalizing xs i with
  | nil => simp [writeSeg]
  | cons v vs ih =>
      have hi : i < xs.length := by simp at h; omega
      rw [writeSeg, ih _ _ (by simp at h ⊢; omega)]
      rw [List.drop_set_of_lt _ _ (by omega), set_take_succ _ _ _ hi]
      have harith : i + 1 + vs.length = i + (v :: vs).length := by simp; omega
      rw [harith]
      simp

theorem writeSeg_append (a b : List ℚ) (xs : List ℚ) (i : Nat) :
    writeSeg xs i (a ++ b) = writeSeg (writeSeg xs i a) (i + a.length) b := by
  induction a generalizing xs i with
  | nil => simp [writeSeg]
  | cons v a ih =>
      rw [List.cons_append, writeSeg, writeSeg, ih]
      congr 1
      simp only [List.length_cons]
      omega

theorem writeSeg_full (vs : List ℚ) (xs : List ℚ) (h : vs.length = xs.length) :
    writeSeg xs 0 vs = vs := by
  rw [writeSeg_eq_splice _ _ _ (by omega)]
  rw [List.take_zero, Nat.zero_add, List.drop_of_length_le (by omega)]
  simp

theorem sliceL_length (xs : List ℚ) (a n : Nat) (h : a + n ≤ xs.length) :
    (sliceL xs a n).length = n := by
  simp [sliceL]
  omega

theorem sliceL_append_left (xs ys : List ℚ) (a n : Nat) (h : a + n ≤ xs.length) :
    sliceL (xs ++ ys) a n = sliceL xs a n := by
  unfold sliceL
  rw [List.drop_append_eq_append_drop, Nat.sub_eq_zero_of_le (by omega),
    List.drop_zero, List.take_append_of_le_length (by simp; omega)]

theorem lookupL_isSome_of_mem {α : Type} (m : List (String × α)) (k : String)
    (v : α) (h : (k, v) ∈ m) : (lookupL m k).isSome = true := by
  induction m with
  | nil => cases h
  | cons p rest ih =>
      cases h with
      | head => simp [lookupL]
      | tail _ h' =>
          by_cases hk : p.1 = k
          · simp [lookupL, hk]
          · simp [lookupL, hk]; exact ih h'

end SdkModel

namespace robot

open SdkModel

/-- C6: `set_gains(kp, kd)` fails whenever `kp` or `kd` differs in length
from the action-channel length 16, whenever `kp` is non-zero at one of
the wheel positions 6, 7, 14, 15 (regardless of every other value), or
whenever any gain is negative, leaving the whole robot state (the stored
gains included) unchanged; every succeeding call stores exactly the
arguments. -/
theorem C6_set_gains_spec (kp kd : List ℚ) (s : RobotState) :
    ((kp.length ≠ 16 ∨ kd.length ≠ 16 ∨
        kp.getD 6 0 ≠ 0 ∨ kp.getD 7 0 ≠ 0 ∨ kp.getD 14 0 ≠ 0 ∨ kp.getD 15 0 ≠ 0 ∨
        (∃ v ∈ kp, v < 0) ∨ (∃ v ∈ kd, v < 0)) →
      ∃ msg, set_gains kp kd s = .err s (.setGainsErr msg)) ∧
    (kp.length = 16 → kd.length = 16 →
      kp.getD 6 0 = 0 → kp.getD 7 0 = 0 → kp.getD 14 0 = 0 → kp.getD 15 0 = 0 →
      (∀ v ∈ kp, 0 ≤ v) → (∀ v ∈ kd, 0 ≤ v) →
      set_gains kp kd s = .ok { s with kp := kp, kd := kd, gains_set := true } ()) := by
  constructor
  · intro hbad
    unfold set_gains lastActionLen
    split_ifs with h1 h2 h3 h4 h5 h6
    · exact ⟨_, rfl⟩
    · exact ⟨_, rfl⟩
    · exact ⟨_, rfl⟩
    · exact ⟨_, rfl⟩
    · exact ⟨_, rfl⟩
    · exact ⟨_, rfl⟩
    · exfalso
      rcases hbad with h | h | h | h | h | h | h | h
      · exact h1 h
      · exact h2 h
      · exact h3 (Or.inl h)
      · exact h3 (Or.inr h)
      · exact h4 (Or.inl h)
      · exact h4 (Or.inr h)
      · exact h5 (by simpa using h)
      · exact h6 (by simpa using h)
  · intro e1 e2 e3 e4 e5 e6 hkp hkd
    unfold set_gains lastActionLen
    split_ifs with h1 h2 h3 h4 h5 h6
    · exact absurd e1 h1
    · exact absurd e2 h2
    · rcases h3 with h | h
      · exact absurd e3 h
      · exact absurd e4 h
    · rcases h4 with h | h
      · exact absurd e5 h
      · exact absurd e6 h
    · exfalso
      rcases (by simpa using h5 : ∃ v ∈ kp, v < 0) with ⟨v, hv, hlt⟩
      exact absurd hlt (not_lt.mpr (hkp v hv))
    · exfalso
      rcases (by simpa using h6 : ∃ v ∈ kd, v < 0) with ⟨v, hv, hlt⟩
      exact absurd hlt (not_lt.mpr (hkd v hv))
    · rfl

/-- C6 witness: a `kp` that is non-zero only at wheel index 6 is
rejected with the state unchanged; all-zero gains are accepted and
stored verbatim. -/
theorem C6_witness :
    (∃ msg, set_gains ((List.replicate 16 (0 : ℚ)).set 6 5) (List.replicate 16 0) initRobot
        = .err initRobot (.setGainsErr msg)) ∧
    set_gains (List.replicate 16 (0 : ℚ)) (List.replicate 16 0) initRobot
      = .ok { initRobot with
                kp := List.replicate 16 0
                kd := List.replicate 16 0
                gains_set := true } () := by
  constructor
  · apply (C6_set_gains_spec _ _ _).1
    refine Or.inr (Or.inr (Or.inl ?_))
    norm_num [List.getD_eq_getElem?_getD]
  · apply (C6_set_gains_spec _ _ _).2 <;>
      simp [List.getD_eq_getElem?_getD, List.getElem?_replicate]

end robot

namespace onnxpolicy

theorem clip_unit_bounds (x : ℚ) : -1 ≤ clip_unit x ∧ clip_unit x ≤ 1 := by
  unfold clip_unit
  split_ifs <;> constructor <;> linarith

/-- C8: a successfully constructed feedforward policy has a fixed
positive feature width; its `inference` fails on every state of a
different length and, on a state of that length, returns the session's
output with every element clamped to `[-1, 1]`; construction fails
whenever the artifact declares zero inputs, zero outputs, or a feature
width that does not resolve to a fixed positive integer. -/
theorem C8_mlp_policy (sess : OrtSession) (p : MLPPolicy) (state : List ℚ) :
    (MLPPolicy.mk' sess = .ok p →
      0 < p.state_dim ∧ p.session = sess ∧
      ((state.length : Int) ≠ p.state_dim → ∃ msg, p.inference state = .error msg) ∧
      ((state.length : Int) = p.state_dim →
        p.inference state = .ok ((sess.runOne state).map clip_unit) ∧
        ∀ x ∈ (sess.runOne state).map clip_unit, -1 ≤ x ∧ x ≤ 1)) ∧
    ((sess.inputs.length = 0 ∨ sess.outputs.length = 0 ∨ resolvedStateDim sess ≤ 0) →
      ∃ msg, MLPPolicy.mk' sess = .error msg) := by
  unfold MLPPolicy.mk'
  split_ifs with h1 h2 h3
  · exact ⟨(fun h => nomatch h), fun _ => ⟨_, rfl⟩⟩
  · exact ⟨(fun h => nomatch h), fun _ => ⟨_, rfl⟩⟩
  · exact ⟨(fun h => nomatch h), fun _ => ⟨_, rfl⟩⟩
  · constructor
    · intro h
      have hp : p = { session := sess, state_dim := resolvedStateDim sess } := by
        cases h; rfl
      subst hp
      refine ⟨by simpa using not_le.mp h3, rfl, ?_, ?_⟩
      · intro hne
        unfold MLPPolicy.inference
        rw [if_pos ⟨by simpa using not_le.mp h3, hne⟩]
        exact ⟨_, rfl⟩
      · intro heq
        constructor
        · unfold MLPPolicy.inference
          rw [if_neg (by simp [heq])]
        · intro x hx
          rcases List.mem_map.mp hx with ⟨y, _, rfl⟩
          exact clip_unit_bounds y
    · intro hbad
      exfalso
      rcases hbad with h | h | h
      · exact h1 (by omega)
      · exact h2 (by omega)
      · exact h3 h

/-- C8 witness: a session with no declared inputs is rejected at
construction. -/
theorem C8_witness :
    ∃ msg, MLPPolicy.mk' wSessNoInputs = .error msg :=
  (C8_mlp_policy wSessNoInputs { session := wSessNoInputs, state_dim := 1 } []).2
    (Or.inl rfl)

/-- The `out_idx` scan finds nothing exactly when no candidate is a
declared output passing the rank/width test (helper for C9). -/
theorem resolveUpdate_eq_none_iff (outNames : List String) (outs : List OrtTensor)
    (expect : Int) (cands : List String) :
    resolveUpdate outNames outs expect cands = none ↔
      ∀ nm ∈ cands, ∀ i, lastIdxOf outNames nm = some i →
        tensorMatches (outs.getD i defaultTensor) expect = false := by
  induction cands with
  | nil => simp [resolveUpdate]
  | cons nm rest ih =>
      cases hidx : lastIdxOf outNames nm with
      | none =>
          have hred : resolveUpdate outNames outs expect (nm :: rest)
              = resolveUpdate outNames outs expect rest := by
            conv_lhs => rw [resolveUpdate]
            rw [hidx]
          rw [hred, ih]
          constructor
          · intro h nm' hnm' i hi
            rcases List.mem_cons.mp hnm' with rfl | hmem
            · rw [hidx] at hi; cases hi
            · exact h nm' hmem i hi
          · intro h nm' hmem i hi
            exact h nm' (List.mem_cons_of_mem _ hmem) i hi
      | some i =>
          have hred : resolveUpdate outNames outs expect (nm :: rest)
              = if tensorMatches (outs.getD i defaultTensor) expect = true
                then some (outs.getD i defaultTensor).data
                else resolveUpdate outNames outs expect rest := by
            conv_lhs => rw [resolveUpdate]
            rw [hidx]
            rfl
          rw [hred]
          by_cases hm : tensorMatches (outs.getD i defaultTensor) expect = true
          · rw [if_pos hm]
            constructor
            · intro h; cases h
            · intro h
              have hcontra := h nm (List.mem_cons_self _ _) i hidx
              rw [hm] at hcontra
              cases hcontra
          · rw [if_neg hm, ih]
            constructor
            · intro h nm' hnm' j hj
              rcases List.mem_cons.mp hnm' with rfl | hmem
              · rw [hidx] at hj
                cases hj
                simpa using hm
              · exact h nm' hmem j hj
            · intro h nm' hmem j hj
              exact h nm' (List.mem_cons_of_mem _ hmem) j hj

/-- C9: `update_hidden_from_outputs` overwrites the hidden (resp. cell)
buffer with the contents of the first alias-candidate update output
that is declared, rank 3, and of the expected last dimension; when no
declared output matches, the corresponding buffer is left exactly
unchanged; and no other field of the policy is modified.  The final
conjunct ties this to `inference`: whatever the first-output check then
does, the returned policy is exactly the updated one. -/
theorem C9_lstm_update (p : LSTMPolicy) (outs : List OrtTensor) :
    (update_hidden_from_outputs p outs).session = p.session ∧
    (update_hidden_from_outputs p outs).output_names = p.output_names ∧
    (update_hidden_from_outputs p outs).h_dim = p.h_dim ∧
    (update_hidden_from_outputs p outs).c_dim = p.c_dim ∧
    (update_hidden_from_outputs p outs).state_dim = p.state_dim ∧
    ((∀ nm ∈ hOutNames, ∀ i, lastIdxOf p.output_names nm = some i →
        tensorMatches (outs.getD i defaultTensor) p.h_dim = false) →
      (update_hidden_from_outputs p outs).policy_h_in = p.policy_h_in) ∧
    (∀ d, resolveUpdate p.output_names outs p.h_dim hOutNames = some d →
      (update_hidden_from_outputs p outs).policy_h_in = d) ∧
    ((∀ nm ∈ cOutNames, ∀ i, lastIdxOf p.output_names nm = some i →
        tensorMatches (outs.getD i defaultTensor) p.c_dim = false) →
      (update_hidden_from_outputs p outs).policy_c_in = p.policy_c_in) ∧
    (∀ d, resolveUpdate p.output_names outs p.c_dim cOutNames = some d →
      (update_hidden_from_outputs p outs).policy_c_in = d) ∧
    (∀ state,
      ¬(p.state_dim > 0 ∧ (state.length : Int) ≠ p.state_dim) →
      (p.session.runAll state p.policy_h_in p.policy_c_in).isEmpty = false →
      p.session.runAll state p.policy_h_in p.policy_c_in = outs →
      LSTMPolicy.inference p state =
        (if (outs.getD 0 defaultTensor).isTensor = false then
          .error ("LSTMPolicy: first output is not a tensor.", update_hidden_from_outputs p outs)
        else
          .ok ((outs.getD 0 defaultTensor).data.map clip_unit,
               update_hidden_from_outputs p outs))) := by
  have hupd : update_hidden_from_outputs p outs =
      { p with
          policy_h_in := (resolveUpdate p.output_names outs p.h_dim hOutNames).getD p.policy_h_in
          policy_c_in := (resolveUpdate p.output_names outs p.c_dim cOutNames).getD p.policy_c_in } := by
    unfold update_hidden_from_outputs
    cases hh : resolveUpdate p.output_names outs p.h_dim hOutNames with
    | none =>
        cases hc : resolveUpdate p.output_names outs p.c_dim cOutNames with
        | none => simp [hc]
        | some d => simp [hc]
    | some d =>
        cases hc : resolveUpdate p.output_names outs p.c_dim cOutNames with
        | none => simp [hc]
        | some d' => simp [hc]
  refine ⟨by rw [hupd], by rw [hupd], by rw [hupd], by rw [hupd], by rw [hupd],
    ?_, ?_, ?_, ?_, ?_⟩
  · intro hno
    rw [hupd]
    have : resolveUpdate p.output_names outs p.h_dim hOutNames = none :=
      (resolveUpdate_eq_none_iff _ _ _ _).mpr hno
    simp [this]
  · intro d hd
    rw [hupd]
    simp [hd]
  · intro hno
    rw [hupd]
    have : resolveUpdate p.output_names outs p.c_dim cOutNames = none :=
      (resolveUpdate_eq_none_iff _ _ _ _).mpr hno
    simp [this]
  · intro d hd
    rw [hupd]
    simp [hd]
  · intro state hlen hne houts
    unfold LSTMPolicy.inference
    rw [if_neg hlen]
    rw [houts] at hne
    simp only [houts, hne, Bool.false_eq_true, if_false, defaultTensor]

/-- C9 witness: on a concrete recurrent policy whose session declared
outputs `action, h, c`, a rank-3 `h` output of width 2 overwrites the
hidden buffer with its contents, while a malformed (rank-2) `c` output
leaves the cell buffer unchanged. -/
theorem C9_witness :
    (update_hidden_from_outputs wLSTM wOuts).policy_h_in = [5, 6] ∧
    (update_hidden_from_outputs wLSTM wOuts).policy_c_in = wLSTM.policy_c_in := by
  constructor
  · exact (C9_lstm_update wLSTM wOuts).2.2.2.2.2.2.1 [5, 6] rfl
  · exact (C9_lstm_update wLSTM wOuts).2.2.2.2.2.2.2.1
      ((resolveUpdate_eq_none_iff _ _ _ _).mp rfl)

end onnxpolicy

namespace mode

open SdkModel

theorem lastAction_lenMap (cfg : ModeCfg) :
    lookupL (lenMapOf cfg) "last_action" = some 16 := by
  simp [lenMapOf, obsToLengthMap, insertL, lookupL]

/-- C10: constructing a `Mode` validates the profile end-to-end by
running one dummy inference on an all-zero state of the computed layout
length (sum of the stacked channel lengths times the stack depth plus
the sum of the non-stacked lengths); a successful construction
therefore carries a policy that accepted exactly that state layout and
produced an action of the declared last-action length 16, and — past
the configuration pre-checks — a failing dummy inference, or an output
of any other length, makes construction throw a config error. -/
theorem C10_mode_validates (cfg : ModeCfg) (m : Mode) :
    (Mode.construct cfg = .ok m →
      ∃ out, cfg.policy (List.replicate (layoutLen cfg) 0) = .ok out ∧ out.length = 16) ∧
    (¬(cfg.id < 1 ∨ cfg.id > 16) → ¬cfg.cmd_vector_length < 0 →
      validateObsKeys cfg.stacked_obs_order = .ok () →
      validateObsKeys cfg.non_stacked_obs_order = .ok () →
      ¬cfg.stack_size < 1 →
      (∀ e, cfg.policy (List.replicate (layoutLen cfg) 0) = .error e →
        Mode.construct cfg = .error (.configErr "Policy inference failed.")) ∧
      (∀ out, cfg.policy (List.replicate (layoutLen cfg) 0) = .ok out → out.length ≠ 16 →
        Mode.construct cfg
          = .error (.configErr "Policy inference output length mismatch"))) := by
  constructor
  · intro h
    by_cases h1 : cfg.id < 1 ∨ cfg.id > 16
    · simp [Mode.construct, h1] at h
    by_cases h2 : cfg.cmd_vector_length < 0
    · simp [Mode.construct, h1, h2] at h
    cases hv1 : validateObsKeys cfg.stacked_obs_order with
    | error e => simp [Mode.construct, h1, h2, hv1] at h
    | ok u =>
      cases hv2 : validateObsKeys cfg.non_stacked_obs_order with
      | error e => simp [Mode.construct, h1, h2, hv1, hv2] at h
      | ok u2 =>
        by_cases h5 : cfg.stack_size < 1
        · simp [Mode.construct, h1, h2, hv1, hv2, h5] at h
        cases hpol : cfg.policy (List.replicate (layoutLen cfg) 0) with
        | error e => simp [Mode.construct, h1, h2, hv1, hv2, h5, hpol] at h
        | ok out =>
          refine ⟨out, rfl, ?_⟩
          by_cases hlen : out.length ≠ (lookupL (lenMapOf cfg) "last_action").getD 0
          · simp [Mode.construct, h1, h2, hv1, hv2, h5, hpol, hlen] at h
          · push_neg at hlen
            rw [lastAction_lenMap] at hlen
            simpa using hlen
  · intro h1 h2 hv1 hv2 h5
    constructor
    · intro e he
      simp [Mode.construct, h1, h2, hv1, hv2, h5, he]
    · intro out hout hlen
      simp [Mode.construct, h1, h2, hv1, hv2, h5, hout, lastAction_lenMap, hlen]

/-- C10 witness: a concrete profile whose policy inference always
fails, and one whose inference returns length 3, each make `Mode`
construction throw the corresponding config error. -/
theorem C10_witness :
    Mode.construct wCfgFail = .error (.configErr "Policy inference failed.") ∧
    Mode.construct wCfgShort
      = .error (.configErr "Policy inference output length mismatch") := by
  constructor
  · exact ((C10_mode_validates wCfgFail
      { id := 1
        stacked_obs_order := []
        non_stacked_obs_order := []
        stack_size := 1
        cmd_vector_length := 0
        obs_to_length := []
        policy := fun _ => .error "" }).2
      (by norm_num [wCfgFail, wCfg]) (by norm_num [wCfgFail, wCfg]) rfl rfl
      (by norm_num [wCfgFail, wCfg])).1 "inference failed" rfl
  · exact ((C10_mode_validates wCfgShort
      { id := 1
        stacked_obs_order := []
        non_stacked_obs_order := []
        stack_size := 1
        cmd_vector_length := 0
        obs_to_length := []
        policy := fun _ => .error "" }).2
      (by norm_num [wCfgShort, wCfg]) (by norm_num [wCfgShort, wCfg]) rfl rfl
      (by norm_num [wCfgShort, wCfg])).2 [1, 2, 3] rfl (by norm_num)

end mode

namespace robot

open SdkModel

theorem relLimits (i : Nat) (hi : i < 12) :
    (lookupL relMinPos (jointNames.getD i "")).getD 0 = -3.14
    ∧ (lookupL relMaxPos (jointNames.getD i "")).getD 0 = 3.14 := by
  interval_cases i <;>
    simp [jointNames, relMinPos, relMaxPos, lookupL]

theorem velIdx_lt (i : Nat) (hi : i < 12) : velIdx i < 16 := by
  unfold velIdx; split_ifs <;> omega

theorem velIdx_inj (i j : Nat) (h : velIdx i = velIdx j) : i = j := by
  unfold velIdx at h; split_ifs at h <;> omega

theorem probe_pos_self (i : Nat) (hi : i < 12) (p v : ℚ) :
    (probeObs i p v).dof_pos.getD i 0 = p := by
  have hl : i < (List.replicate 12 (0 : ℚ)).length := by simp [hi]
  simp only [probeObs]
  rw [List.getD_eq_getElem?_getD, List.getElem?_set_self hl]
  rfl

theorem probe_vel_self (i : Nat) (hi : i < 12) (p v : ℚ) :
    (probeObs i p v).dof_vel.getD (velIdx i) 0 = v := by
  have hl : velIdx i < (List.replicate 16 (0 : ℚ)).length := by
    simp [velIdx_lt i hi]
  simp only [probeObs]
  rw [List.getD_eq_getElem?_getD, List.getElem?_set_self hl]
  rfl

theorem probe_pos_other (i j : Nat) (hne : j ≠ i) (p v : ℚ) :
    (probeObs i p v).dof_pos.getD j 0 = 0 := by
  simp only [probeObs]
  rw [List.getD_eq_getElem?_getD,
    List.getElem?_set_ne (show i ≠ j from Ne.symm hne), List.getElem?_replicate]
  by_cases hj : j < 12 <;> simp [hj]

theorem probe_vel_other (i j : Nat) (hne : velIdx j ≠ velIdx i) (p v : ℚ) :
    (probeObs i p v).dof_vel.getD (velIdx j) 0 = 0 := by
  simp only [probeObs]
  rw [List.getD_eq_getElem?_getD,
    List.getElem?_set_ne (show velIdx i ≠ velIdx j from Ne.symm hne),
    List.getElem?_replicate]
  by_cases hj : velIdx j < 16 <;> simp [hj]

theorem checkObsList_eq_none_iff (o : Obs) (ks : List Nat) :
    checkObsList o ks = none ↔ ∀ i ∈ ks, checkObsAt o i = none := by
  induction ks with
  | nil => simp [checkObsList]
  | cons i rest ih =>
      unfold checkObsList
      cases hci : checkObsAt o i with
      | some t => simp [hci]
      | none => simp [hci, ih]

/-- C2: for every joint, the joint-limit check does not trip when the
position is exactly (declared min + margin) and the velocity is not
below the near-limit threshold; it trips at (min + margin − ε) for
every ε > 0; and a position inside the lower near-limit zone combined
with a velocity beyond the threshold toward the limit also trips.  All
other joints read zero. -/
theorem C2_joint_limit_boundary (i : Nat) (hi : i < 12) (p v ε : ℚ) :
    ((p = loLimit i ∧ -velTh ≤ v) → checkObs (probeObs i p v) = none) ∧
    (0 < ε → p = loLimit i - ε → (checkObs (probeObs i p v)).isSome = true) ∧
    ((loLimit i ≤ p ∧ p < loLimit i + velMargin ∧ v < -velTh) →
      (checkObs (probeObs i p v)).isSome = true) := by
  obtain ⟨hmin, hmax⟩ := relLimits i hi
  have hlo : loLimit i = -3.14 + posMargin := by rw [loLimit, hmin]
  refine ⟨?_, ?_, ?_⟩
  · rintro ⟨hp, hv⟩
    unfold checkObs
    rw [checkObsList_eq_none_iff]
    intro j hj
    rw [List.mem_range] at hj
    obtain ⟨hminj, hmaxj⟩ := relLimits j hj
    by_cases hji : j = i
    · subst hji
      simp only [checkObsAt]
      rw [hminj, hmaxj, probe_pos_self j hj, probe_vel_self j hj]
      rw [if_neg, if_neg, if_neg]
      · rw [hp, hlo]
        norm_num [posMargin, velMargin, velTh]
      · rw [hp, hlo]
        intro hcon
        have := hcon.2
        norm_num [posMargin, velMargin, velTh] at this hv
        linarith
      · rw [hp, hlo]
        norm_num [posMargin, velMargin, velTh]
    · simp only [checkObsAt]
      rw [hminj, hmaxj, probe_pos_other i j hji,
        probe_vel_other i j (fun hc => hji (velIdx_inj j i hc))]
      rw [if_neg, if_neg, if_neg]
      · norm_num [posMargin, velMargin, velTh]
      · norm_num [posMargin, velMargin, velTh]
      · norm_num [posMargin, velMargin, velTh]
  · intro hε hp
    have hne : checkObsAt (probeObs i p v) i ≠ none := by
      simp only [checkObsAt]
      rw [hmin, hmax, probe_pos_self i hi, probe_vel_self i hi]
      rw [if_pos]
      · simp
      · left
        rw [hp, hlo]
        linarith
    rw [Option.isSome_iff_ne_none]
    intro hnone
    exact hne ((checkObsList_eq_none_iff _ _).mp hnone i (List.mem_range.mpr hi))
  · rintro ⟨hp1, hp2, hv⟩
    have hne : checkObsAt (probeObs i p v) i ≠ none := by
      intro heq
      simp only [checkObsAt] at heq
      rw [hmin, hmax, probe_pos_self i hi, probe_vel_self i hi] at heq
      split_ifs at heq with a b c
      exact b ⟨by rw [hlo] at hp2; linarith, hv⟩
    rw [Option.isSome_iff_ne_none]
    intro hnone
    exact hne ((checkObsList_eq_none_iff _ _).mp hnone i (List.mem_range.mpr hi))

/-- C2 witness at joint 0: at position exactly (min + margin) with zero
velocity the check passes; one radian below it trips; and a position
one-tenth radian inside the near-limit zone with velocity −9 rad/s
trips. -/
theorem C2_witness :
    checkObs (probeObs 0 (loLimit 0) 0) = none
    ∧ (checkObs (probeObs 0 (loLimit 0 - 1) 0)).isSome = true
    ∧ (checkObs (probeObs 0 (loLimit 0 + 1/10) (-9))).isSome = true := by
  refine ⟨?_, ?_, ?_⟩
  · exact (C2_joint_limit_boundary 0 (by norm_num) (loLimit 0) 0 1).1
      ⟨rfl, by norm_num [velTh]⟩
  · exact (C2_joint_limit_boundary 0 (by norm_num) (loLimit 0 - 1) 0 1).2.1
      (by norm_num) rfl
  · exact (C2_joint_limit_boundary 0 (by norm_num) (loLimit 0 + 1/10) (-9) 1).2.2
      ⟨by norm_num, by norm_num [velMargin], by norm_num [velTh]⟩

theorem check_safety_state (df ef dr er : Bool) (s : RobotState) :
    (check_safety df ef dr er s).state =
      { s with cli_disconn_duration_ms :=
          if df || dr then s.cli_disconn_duration_ms + 20 else 0 } := by
  simp only [check_safety]
  split_ifs <;>
    first
      | rfl
      | (cases hobs : checkObs s.obs <;> simp [hobs, RResult.state])

theorem check_safety_isErr (df ef dr er : Bool) (s : RobotState) :
    (check_safety df ef dr er s).isErr = true ↔
      ((ef || er) = true
        ∨ disconnTimeoutMs ≤ max (if df || dr then s.cli_disconn_duration_ms + 20 else 0)
            (s.cli_missed_req * 20)
        ∨ (checkObs s.obs).isSome = true) := by
  simp only [check_safety]
  by_cases h2 : (ef || er) = true
      ∨ max (if (df || dr) = true then s.cli_disconn_duration_ms + 20 else 0)
          (s.cli_missed_req * 20) ≥ disconnTimeoutMs
  · rw [if_pos h2]
    simp only [RResult.isErr, true_iff]
    rcases h2 with h | h
    · exact Or.inl h
    · exact Or.inr (Or.inl h)
  · rw [if_neg h2]
    cases hobs : checkObs s.obs with
    | some t =>
        simp [hobs, RResult.isErr]
    | none =>
        simp only [hobs, RResult.isErr]
        constructor
        · intro h; cases h
        · intro hr
          rcases hr with h | h | h
          · exact absurd (Or.inl h) h2
          · exact absurd (Or.inr h) h2
          · simp at h

/-- C7 (amended): each `check_safety` poll with either board
disconnected adds one 20 ms poll period to the disconnection counter;
a poll with no disconnection resets it to zero, so a second identical
healthy poll leaves the counter where the first left it; and the call
raises exactly when an emergency flag is reported, when the updated
duration or the missed-request count times the poll period reaches the
200 ms timeout, or when the joint-limit check trips on the retained
observation. -/
theorem C7_check_safety_counter (df ef dr er : Bool) (s : RobotState) :
    ((df = true ∨ dr = true) →
      (check_safety df ef dr er s).state.cli_disconn_duration_ms
        = s.cli_disconn_duration_ms + 20) ∧
    (df = false → dr = false →
      (check_safety df ef dr er s).state.cli_disconn_duration_ms = 0) ∧
    (df = false → dr = false →
      (check_safety df ef dr er
          (check_safety df ef dr er s).state).state.cli_disconn_duration_ms
        = (check_safety df ef dr er s).state.cli_disconn_duration_ms) ∧
    ((check_safety df ef dr er s).isErr = true ↔
      ((ef || er) = true
        ∨ disconnTimeoutMs ≤ max (if df || dr then s.cli_disconn_duration_ms + 20 else 0)
            (s.cli_missed_req * 20)
        ∨ (checkObs s.obs).isSome = true)) := by
  refine ⟨?_, ?_, ?_, check_safety_isErr df ef dr er s⟩
  · intro hd
    rw [check_safety_state]
    have hdd : (df || dr) = true := by rcases hd with h | h <;> simp [h]
    simp [hdd]
  · intro h1 h2
    rw [check_safety_state]
    simp [h1, h2]
  · intro h1 h2
    rw [check_safety_state, check_safety_state]
    simp [h1, h2]

/-- C7 counterexample: with both boards connected, no emergency flag,
both counters at zero — so neither the duration nor the missed-request
product has reached the timeout — `check_safety` nevertheless raises,
because the retained observation violates a joint position limit.  The
claim's "trips exactly when the duration counter or
missed-request-count × poll-period reaches the fixed timeout, or an
emergency flag is reported" is therefore false as stated. -/
theorem C7_counterexample :
    (check_safety false false false false badObsRobot).isErr = true
    ∧ badObsRobot.cli_missed_req = 0
    ∧ (check_safety false false false false badObsRobot).state.cli_disconn_duration_ms
        = 0 := by
  have hbad : checkObsAt badObsRobot.obs 0 ≠ none := by
    show checkObsAt (probeObs 0 (-3.14) 0) 0 ≠ none
    simp only [checkObsAt]
    rw [(relLimits 0 (by norm_num)).1, (relLimits 0 (by norm_num)).2,
      probe_pos_self 0 (by norm_num), probe_vel_self 0 (by norm_num)]
    rw [if_pos]
    · simp
    · left
      norm_num [posMargin]
  refine ⟨?_, rfl, ?_⟩
  · rw [check_safety_isErr]
    refine Or.inr (Or.inr ?_)
    rw [Option.isSome_iff_ne_none]
    intro hnone
    exact hbad ((checkObsList_eq_none_iff _ _).mp hnone 0
      (List.mem_range.mpr (by norm_num)))
  · rw [check_safety_state]
    simp

/-- C7 witness: concrete polls on the freshly constructed robot — a
disconnected poll adds 20 ms, and two healthy polls leave the counter
at the same value. -/
theorem C7_witness :
    (check_safety true false false false initRobot).state.cli_disconn_duration_ms
      = initRobot.cli_disconn_duration_ms + 20
    ∧ (check_safety false false false false
        (check_safety false false false false initRobot).state).state.cli_disconn_duration_ms
      = (check_safety false false false false initRobot).state.cli_disconn_duration_ms := by
  constructor
  · exact (C7_check_safety_counter true false false false initRobot).1 (Or.inl rfl)
  · exact (C7_check_safety_counter false false false false initRobot).2.2.1 rfl rfl

/-- C1 (amended): `check_safety` never transmits — every SafetyTrip it
raises (connection timeout, emergency flag, joint-limit violation)
leaves the transmission log unchanged, so no stop command is sent
before that exception; the `do_action` length-mismatch path, by
contrast, transmits the unconditional emergency-stop round to both
boards before raising. -/
theorem C1_trip_transmission (df ef dr er : Bool) (s : RobotState)
    (a : List ℚ) (tc : Bool) :
    (check_safety df ef dr er s).state.sent = s.sent ∧
    (s.gains_set = true → a.length ≠ 16 →
      do_action a tc df ef dr er s
        = .err (estopSend s) (.eStopAction "action length mismatch.")
      ∧ (estopSend s).sent = s.sent
          ++ [(Board.front, BoardCmd.estopCmd motorIdsFront),
              (Board.rear, BoardCmd.estopCmd motorIdsRear)]) := by
  constructor
  · rw [check_safety_state]
  · intro hg hl
    constructor
    · unfold do_action
      rw [if_neg (by simp [hg]), if_pos (by simpa [lastActionLen] using hl)]
      rfl
    · rfl

/-- C1 counterexample: an emergency flag reported by the front board
makes `check_safety` raise the e-stop error while the transmission log
stays empty — no emergency-stop command is sent to either board before
the exception, contradicting the claim. -/
theorem C1_counterexample :
    (check_safety false true false false initRobot).isErr = true
    ∧ (check_safety false true false false initRobot).state.sent = [] := by
  constructor
  · rw [check_safety_isErr]
    exact Or.inl rfl
  · rw [check_safety_state]
    simp [initRobot]

/-- C1 witness: a wrong-length action on a robot with gains set takes
the transmitting path. -/
theorem C1_witness :
    (check_safety false true false false initRobot).state.sent = initRobot.sent
    ∧ (do_action [] false false false false false gainedRobot
        = .err (estopSend gainedRobot) (.eStopAction "action length mismatch.")
      ∧ (estopSend gainedRobot).sent = gainedRobot.sent
          ++ [(Board.front, BoardCmd.estopCmd motorIdsFront),
              (Board.rear, BoardCmd.estopCmd motorIdsRear)]) :=
  ⟨(C1_trip_transmission false true false false initRobot [] false).1,
   (C1_trip_transmission false false false false gainedRobot [] false).2 rfl
     (by norm_num)⟩

/-- C5 (amended): gains-unset `do_action`, `build_state` and
`select_action` before a mode is selected, and a wrong-length
`scaled_last_action` are all rejected with the object state — hence
every shared buffer and the transmission log — unchanged; the one
exception to the claim is a wrong-length action passed to `do_action`
with gains set, which transmits the emergency-stop round to both boards
and raises the e-stop error. -/
theorem C5_usage_rejection (a : List ℚ) (tc df ef dr er : Bool) (s : RobotState)
    (obs : List (String × List ℚ)) (cmd : rl.CmdDict) (sla : Option (List ℚ))
    (st v : List ℚ) (rs : rl.RLState) :
    (s.gains_set = false →
      do_action a tc df ef dr er s
        = .err s (.setGainsErr "Robot's kp and kd must be provided before do_action.")) ∧
    (s.gains_set = true → a.length ≠ 16 →
      do_action a tc df ef dr er s
        = .err (estopSend s) (.eStopAction "action length mismatch.")) ∧
    (rs.mode = none → rl.build_state obs cmd sla rs = .err rs .modeNotSet) ∧
    (rs.mode = none → rl.select_action st rs = .err rs .modeNotSet) ∧
    (rs.mode.isSome = true → cmd.mode_id = none → sla = some v →
      v.length ≠ rs.last_action_len →
      rl.build_state obs cmd sla rs
        = .err rs (.valueErr "scaled_last_action length mismatch")) := by
  refine ⟨?_, ?_, ?_, ?_, ?_⟩
  · intro hg
    unfold do_action
    rw [if_pos hg]
  · intro hg hl
    unfold do_action
    rw [if_neg (by simp [hg]), if_pos (by simpa [lastActionLen] using hl)]
    rfl
  · intro hm
    unfold rl.build_state
    rw [if_pos (by simp [hm])]
  · intro hm
    unfold rl.select_action
    rw [if_pos (by simp [hm])]
  · intro hm hmid hsla hlen
    unfold rl.build_state
    rw [if_neg (by simp [Option.isNone_iff_eq_none]; exact Option.isSome_iff_ne_none.mp hm)]
    rw [hmid, hsla]
    simp [rl.set_mode, hlen]

/-- C5 counterexample: a wrong-length action passed to `do_action` with
gains set does have a hardware side effect before the exception — the
emergency-stop datagrams to both boards are transmitted — contradicting
"no datagram is transmitted to either board" for that usage error. -/
theorem C5_counterexample :
    do_action (List.replicate 15 0) false false false false false gainedRobot
      = .err (estopSend gainedRobot) (.eStopAction "action length mismatch.")
    ∧ (estopSend gainedRobot).sent
        = [(Board.front, BoardCmd.estopCmd motorIdsFront),
           (Board.rear, BoardCmd.estopCmd motorIdsRear)] := by
  constructor
  · unfold do_action
    rw [if_neg (by simp [gainedRobot, initRobot]),
      if_pos (by simp [lastActionLen])]
    rfl
  · rfl

/-- C5 witness: concrete rejected calls — `do_action` before gains,
`build_state` and `select_action` before any mode, and a wrong-length
`scaled_last_action` — all return the unchanged state. -/
theorem C5_witness :
    (do_action [] false false false false false initRobot
      = .err initRobot (.setGainsErr "Robot's kp and kd must be provided before do_action."))
    ∧ (rl.build_state [] { mode_id := none, cmd_vector := none } none rl.initRL
        = .err rl.initRL .modeNotSet)
    ∧ (rl.select_action [] rl.initRL = .err rl.initRL .modeNotSet)
    ∧ (rl.build_state [] { mode_id := none, cmd_vector := none } (some [1]) rl.wRL
        = .err rl.wRL (.valueErr "scaled_last_action length mismatch")) :=
  ⟨(C5_usage_rejection [] false false false false false initRobot []
      { mode_id := none, cmd_vector := none } none [] [] rl.initRL).1 rfl,
   (C5_usage_rejection [] false false false false false initRobot []
      { mode_id := none, cmd_vector := none } none [] [] rl.initRL).2.2.1 rfl,
   (C5_usage_rejection [] false false false false false initRobot []
      { mode_id := none, cmd_vector := none } none [] [] rl.initRL).2.2.2.1 rfl,
   (C5_usage_rejection [] false false false false false initRobot []
      { mode_id := none, cmd_vector := none } (some [1]) [] [1] rl.wRL).2.2.2.2 rfl rfl rfl
     (by norm_num [rl.wRL, rl.initRL])⟩

end robot
namespace rl

open SdkModel

theorem lenD_congr (s s' : RLState) (k : String)
    (h : s'.obs_to_length = s.obs_to_length) : lenD s' k = lenD s k := by
  unfold lenD; rw [h]

theorem sumLensD_congr (s s' : RLState) (ks : List String)
    (h : s'.obs_to_length = s.obs_to_length) : sumLensD s' ks = sumLensD s ks := by
  induction ks with
  | nil => rfl
  | cons k rest ih => unfold sumLensD; rw [lenD_congr s s' k h, ih]

theorem srcOf_congr (s s' : RLState) (obs : List (String × List ℚ)) (cmd : CmdDict)
    (k : String) (h : s'.last_action = s.last_action) :
    srcOf s' obs cmd k = srcOf s obs cmd k := by
  unfold srcOf; rw [h]

theorem srcOf_isSome_congr (s s' : RLState) (obs : List (String × List ℚ))
    (cmd : CmdDict) (k : String) :
    (srcOf s' obs cmd k).isSome = (srcOf s obs cmd k).isSome := by
  unfold srcOf
  split_ifs <;> rfl

theorem scaleOf_congr (s s' : RLState) (k : String) (len : Nat)
    (h1 : s'.cached_cmd_scale = s.cached_cmd_scale)
    (h2 : s'.cached_obs_scale_map = s.cached_obs_scale_map) :
    scaleOf s' k len = scaleOf s k len := by
  unfold scaleOf getObsScale; rw [h1, h2]

theorem frameSegs_congr (s s' : RLState) (obs : List (String × List ℚ))
    (cmd : CmdDict) (ks : List String) (i : Nat)
    (h1 : s'.obs_to_length = s.obs_to_length) (h2 : s'.state_ = s.state_)
    (h3 : s'.last_action = s.last_action)
    (h4 : s'.cached_cmd_scale = s.cached_cmd_scale)
    (h5 : s'.cached_obs_scale_map = s.cached_obs_scale_map) :
    frameSegs s' obs cmd ks i = frameSegs s obs cmd ks i := by
  induction ks generalizing i with
  | nil => rfl
  | cons k rest ih =>
      simp only [frameSegs]
      rw [lenD_congr s s' k h1, srcOf_congr s s' obs cmd k h3,
        scaleOf_congr s s' k (lenD s k) h4 h5, h2, ih]

/-- When every channel of `ks` resolves to a source, the built segments
do not depend on the previous state buffer nor on the offset. -/
theorem frameSegs_full_congr (s s' : RLState) (obs : List (String × List ℚ))
    (cmd : CmdDict) (ks : List String) (i i' : Nat)
    (h1 : s'.obs_to_length = s.obs_to_length)
    (h3 : s'.last_action = s.last_action)
    (h4 : s'.cached_cmd_scale = s.cached_cmd_scale)
    (h5 : s'.cached_obs_scale_map = s.cached_obs_scale_map)
    (hfull : ∀ k ∈ ks, (srcOf s obs cmd k).isSome = true) :
    frameSegs s' obs cmd ks i' = frameSegs s obs cmd ks i := by
  induction ks generalizing i i' with
  | nil => rfl
  | cons k rest ih =>
      obtain ⟨sv, hsv⟩ := Option.isSome_iff_exists.mp (hfull k (List.mem_cons_self _ _))
      have hsv' : srcOf s' obs cmd k = some sv := by
        rw [srcOf_congr s s' obs cmd k h3]; exact hsv
      simp only [frameSegs]
      rw [lenD_congr s s' k h1, srcOf_congr s s' obs cmd k h3, hsv,
        scaleOf_congr s s' k (lenD s k) h4 h5,
        ih _ _ (fun k hk => hfull k (List.mem_cons_of_mem _ hk))]

theorem sumLens_eq_ok (s : RLState) (ks : List String)
    (h : ∀ k ∈ ks, (lookupL s.obs_to_length k).isSome = true) :
    sumLens s ks = .ok (sumLensD s ks) := by
  induction ks with
  | nil => rfl
  | cons k rest ih =>
      obtain ⟨n, hn⟩ := Option.isSome_iff_exists.mp (h k (List.mem_cons_self _ _))
      have hg : getObsLen s k = .ok n := by unfold getObsLen; rw [hn]
      have hl : lenD s k = n := by unfold lenD; rw [hn]; rfl
      have hrest := ih (fun k hk => h k (List.mem_cons_of_mem _ hk))
      simp only [sumLens, hg, hrest]
      rw [show sumLensD s (k :: rest) = lenD s k + sumLensD s rest from rfl, hl]

theorem sliceL_eq_of_drop_eq (xs ys : List ℚ) (a n : Nat)
    (h : xs.drop a = ys.drop a) : sliceL xs a n = sliceL ys a n := by
  unfold sliceL; rw [h]

theorem sliceL_take (xs : List ℚ) (m a n : Nat) (h : a + n ≤ m) :
    sliceL (xs.take m) a n = sliceL xs a n := by
  unfold sliceL
  rw [List.drop_take, List.take_take, Nat.min_eq_left (by omega)]

theorem sliceL_eq_of_take_eq (xs ys : List ℚ) (m a n : Nat) (h : a + n ≤ m)
    (heq : xs.take m = ys.take m) : sliceL xs a n = sliceL ys a n := by
  rw [← sliceL_take xs m a n h, ← sliceL_take ys m a n h, heq]

theorem flatten_length_uniform (ll : List (List ℚ)) (L : Nat)
    (h : ∀ x ∈ ll, x.length = L) : ll.flatten.length = L * ll.length := by
  induction ll with
  | nil => simp
  | cons x rest ih =>
      simp only [List.flatten_cons, List.length_append, List.length_cons,
        h x (List.mem_cons_self _ _), ih (fun y hy => h y (List.mem_cons_of_mem _ hy))]
      ring

theorem flatten_take_exact (ll : List (List ℚ)) (L m : Nat)
    (h : ∀ x ∈ ll, x.length = L) (hm : m ≤ ll.length) :
    ll.flatten.take (L * m) = (ll.take m).flatten := by
  induction ll generalizing m with
  | nil =>
      have hm0 : m = 0 := by simpa using hm
      simp [hm0]
  | cons x rest ih =>
      cases m with
      | zero => simp
      | succ m =>
          simp only [List.flatten_cons, List.take_succ_cons]
          rw [show L * (m + 1) = x.length + L * m by
            rw [h x (List.mem_cons_self _ _)]; ring]
          rw [List.take_append,
            ih m (fun y hy => h y (List.mem_cons_of_mem _ hy)) (by simpa using hm)]

theorem recentFrames_succ (f : Nat → List ℚ) (t n : Nat) :
    recentFrames f (t + 1) (n + 1) = f t :: recentFrames f t n := by
  simp [recentFrames]

theorem recentFrames_length (f : Nat → List ℚ) (t n : Nat) :
    (recentFrames f t n).length = n := by
  induction n generalizing t with
  | zero => rfl
  | succ n ih => simp [recentFrames, ih]

theorem recentFrames_mem_length (f : Nat → List ℚ) (L : Nat)
    (hf : ∀ u, (f u).length = L) (t n : Nat) :
    ∀ x ∈ recentFrames f t n, x.length = L := by
  induction n generalizing t with
  | zero => intro x hx; cases hx
  | succ n ih =>
      intro x hx
      rcases List.mem_cons.mp hx with rfl | hmem
      · exact hf _
      · exact ih _ x hmem

theorem recentFrames_take (f : Nat → List ℚ) (t n m : Nat) :
    (recentFrames f t n).take m = recentFrames f t (min m n) := by
  induction n generalizing t m with
  | zero => simp [recentFrames, iterBuild]
  | succ n ih =>
      cases m with
      | zero => simp [recentFrames, iterBuild]
      | succ m =>
          simp only [recentFrames, List.take_succ_cons, ih, Nat.succ_min_succ]

theorem stackedLoop_ok (obs : List (String × List ℚ)) (cmd : CmdDict)
    (ks : List String) (i : Nat) (s : RLState)
    (hres : ∀ k ∈ ks, (lookupL s.obs_to_length k).isSome = true)
    (hb : i + sumLensD s ks ≤ s.state_.length) :
    stackedLoop obs cmd ks i s =
      .ok { s with single_frame :=
              writeSeg s.single_frame i (frameSegs s obs cmd ks i).flatten }
        (i + sumLensD s ks) := by
  induction ks generalizing i s with
  | nil => simp [stackedLoop, frameSegs, sumLensD, writeSeg]
  | cons k rest ih =>
      obtain ⟨len, hn⟩ := Option.isSome_iff_exists.mp (hres k (List.mem_cons_self _ _))
      have hg : getObsLen s k = .ok len := by unfold getObsLen; rw [hn]
      have hl : lenD s k = len := by unfold lenD; rw [hn]; rfl
      have hsum : sumLensD s (k :: rest) = len + sumLensD s rest := by
        rw [show sumLensD s (k :: rest) = lenD s k + sumLensD s rest from rfl, hl]
      have hres' : ∀ k' ∈ rest, (lookupL s.obs_to_length k').isSome = true :=
        fun k' hk => hres k' (List.mem_cons_of_mem _ hk)
      cases hsrc : srcOf s obs cmd k with
      | none =>
          have hslice : (sliceL s.state_ i len).length = len :=
            sliceL_length _ _ _ (by omega)
          simp only [stackedLoop, hg, hsrc]
          set s1 : RLState := { s with single_frame := writeSeg s.single_frame i (sliceL s.state_ i len) } with hs1
          have hres1 : ∀ k' ∈ rest, (lookupL s1.obs_to_length k').isSome = true := hres'
          have hb1 : (i + len) + sumLensD s1 rest ≤ s1.state_.length := by
            rw [sumLensD_congr s s1 rest rfl]
            show i + len + sumLensD s rest ≤ s.state_.length
            omega
          rw [ih (i + len) s1 hres1 hb1,
            frameSegs_congr s s1 obs cmd rest (i + len) rfl rfl rfl rfl rfl,
            sumLensD_congr s s1 rest rfl]
          simp only [hs1]
          simp only [frameSegs, hsrc, hl]
          rw [List.flatten_cons, writeSeg_append, hslice, hsum, ← Nat.add_assoc]
      | some sv =>
          have hvals : ((List.range len).map
              (fun j => sv.getD j 0 * (scaleOf s k len).getD j 1)).length = len := by
            simp
          simp only [stackedLoop, hg, hsrc]
          set s1 : RLState := { s with single_frame := writeSeg s.single_frame i ((List.range len).map (fun j => sv.getD j 0 * (scaleOf s k len).getD j 1)) } with hs1
          have hres1 : ∀ k' ∈ rest, (lookupL s1.obs_to_length k').isSome = true := hres'
          have hb1 : (i + len) + sumLensD s1 rest ≤ s1.state_.length := by
            rw [sumLensD_congr s s1 rest rfl]
            show i + len + sumLensD s rest ≤ s.state_.length
            omega
          rw [ih (i + len) s1 hres1 hb1,
            frameSegs_congr s s1 obs cmd rest (i + len) rfl rfl rfl rfl rfl,
            sumLensD_congr s s1 rest rfl]
          simp only [hs1]
          simp only [frameSegs, hsrc, hl]
          rw [List.flatten_cons, writeSeg_append, hvals, hsum, ← Nat.add_assoc]

theorem shiftFrom_eq (L : Nat) (k : Nat) (st : List ℚ) (h : (k + 1) * L ≤ st.length) :
    shiftFrom L k st = st.take L ++ st.take (k * L) ++ st.drop ((k + 1) * L) := by
  induction k generalizing st with
  | zero => simp [shiftFrom, Nat.one_mul]
  | succ k ih =>
      have e1 : (k + 1 + 1) * L = (k + 1) * L + L := by ring
      have e2 : (k + 1) * L = k * L + L := by ring
      have hlenb : (k + 1) * L + L ≤ st.length := by omega
      have hslice : (sliceL st (k * L) L).length = L :=
        sliceL_length _ _ _ (by omega)
      have hcopy : copySlot st L (k + 1)
          = st.take ((k + 1) * L) ++ sliceL st (k * L) L ++ st.drop ((k + 1) * L + L) := by
        unfold copySlot
        rw [show k + 1 - 1 = k from rfl,
          writeSeg_eq_splice _ _ _ (by rw [hslice]; omega), hslice]
      have hlc : (copySlot st L (k + 1)).length = st.length := by
        unfold copySlot; exact writeSeg_length _ _ _
      have hA : (st.take ((k + 1) * L)).length = (k + 1) * L := by
        rw [List.length_take]; omega
      have htake1 : (copySlot st L (k + 1)).take L = st.take L := by
        rw [hcopy, List.append_assoc, List.take_append_of_le_length (by rw [hA]; omega),
          List.take_take, Nat.min_eq_left (by omega)]
      have htake2 : (copySlot st L (k + 1)).take (k * L) = st.take (k * L) := by
        rw [hcopy, List.append_assoc, List.take_append_of_le_length (by rw [hA]; omega),
          List.take_take, Nat.min_eq_left (by omega)]
      have hdrop : (copySlot st L (k + 1)).drop ((k + 1) * L)
          = sliceL st (k * L) L ++ st.drop ((k + 1) * L + L) := by
        rw [hcopy, List.append_assoc, List.drop_left' hA]
      have hsplit : st.take ((k + 1) * L) = st.take (k * L) ++ sliceL st (k * L) L := by
        rw [e2, List.take_add]; rfl
      rw [shiftFrom, ih (copySlot st L (k + 1)) (by rw [hlc]; omega),
        htake1, htake2, hdrop, hsplit, e1]
      simp [List.append_assoc]

theorem nonStackedLoop_ok (obs : List (String × List ℚ)) (cmd : CmdDict)
    (ks : List String) (base : Nat) (s : RLState)
    (hres : ∀ k ∈ ks, (lookupL s.obs_to_length k).isSome = true) :
    ∃ stf : List ℚ,
      nonStackedLoop obs cmd ks base s = .ok { s with state_ := stf } ()
      ∧ stf.length = s.state_.length
      ∧ stf.take base = s.state_.take base
      ∧ (∀ pre key post, ks = pre ++ key :: post → srcOf s obs cmd key = none →
          sliceL stf (base + sumLensD s pre) (lenD s key)
            = sliceL s.state_ (base + sumLensD s pre) (lenD s key)) := by
  induction ks generalizing base s with
  | nil =>
      refine ⟨s.state_, by simp [nonStackedLoop], rfl, rfl, ?_⟩
      intro pre key post hdec
      simp at hdec
  | cons k rest ih =>
      obtain ⟨len, hn⟩ := Option.isSome_iff_exists.mp (hres k (List.mem_cons_self _ _))
      have hg : getObsLen s k = .ok len := by unfold getObsLen; rw [hn]
      have hl : lenD s k = len := by unfold lenD; rw [hn]; rfl
      have hres' : ∀ k' ∈ rest, (lookupL s.obs_to_length k').isSome = true :=
        fun k' hk => hres k' (List.mem_cons_of_mem _ hk)
      cases hsrc : srcOf s obs cmd k with
      | none =>
          obtain ⟨stf, hloop, hlen2, htake, hslices⟩ := ih (base + len) s hres'
          refine ⟨stf, ?_, hlen2, ?_, ?_⟩
          · simp only [nonStackedLoop, hg, hsrc]
            exact hloop
          · have h1 : stf.take base = (stf.take (base + len)).take base := by
              rw [List.take_take, Nat.min_eq_left (by omega)]
            rw [h1, htake, List.take_take, Nat.min_eq_left (by omega)]
          · intro pre key post hdec hkey
            cases pre with
            | nil =>
                simp only [List.nil_append, List.cons.injEq] at hdec
                obtain ⟨rfl, rfl⟩ := hdec
                rw [show sumLensD s ([] : List String) = 0 from rfl, Nat.add_zero, hl]
                exact sliceL_eq_of_take_eq _ _ (base + len) _ _ (by omega) htake
            | cons k2 pre' =>
                simp only [List.cons_append, List.cons.injEq] at hdec
                obtain ⟨rfl, hrest⟩ := hdec
                have hmain := hslices pre' key post hrest hkey
                rw [show sumLensD s (k :: pre') = lenD s k + sumLensD s pre' from rfl, hl,
                  show base + (len + sumLensD s pre') = base + len + sumLensD s pre' from by omega]
                exact hmain
      | some sv =>
          have hvals : ((List.range len).map
              (fun j => sv.getD j 0 * (scaleOf s k len).getD j 1)).length = len := by
            simp
          obtain ⟨stf, hloop, hlen2, htake, hslices⟩ :=
            ih (base + len) ({ s with state_ := writeSeg s.state_ base ((List.range len).map (fun j => sv.getD j 0 * (scaleOf s k len).getD j 1)) }) hres'
          refine ⟨stf, ?_, ?_, ?_, ?_⟩
          · simp only [nonStackedLoop, hg, hsrc]
            exact hloop
          · exact hlen2.trans (writeSeg_length _ _ _)
          · have h1 : stf.take base = (stf.take (base + len)).take base := by
              rw [List.take_take, Nat.min_eq_left (by omega)]
            rw [h1, htake, List.take_take, Nat.min_eq_left (by omega)]
            exact take_writeSeg _ _ _ _ (le_refl base)
          · intro pre key post hdec hkey
            cases pre with
            | nil =>
                simp only [List.nil_append, List.cons.injEq] at hdec
                obtain ⟨rfl, rfl⟩ := hdec
                rw [hsrc] at hkey
                cases hkey
            | cons k2 pre' =>
                simp only [List.cons_append, List.cons.injEq] at hdec
                obtain ⟨rfl, hrest⟩ := hdec
                have hmain := hslices pre' key post hrest hkey
                have hdropw : (writeSeg s.state_ base ((List.range len).map (fun j => sv.getD j 0 * (scaleOf s k len).getD j 1))).drop (base + len + sumLensD s pre')
                    = s.state_.drop (base + len + sumLensD s pre') :=
                  drop_writeSeg _ _ _ _ (by rw [hvals]; omega)
                rw [show sumLensD s (k :: pre') = lenD s k + sumLensD s pre' from rfl, hl,
                  show base + (len + sumLensD s pre') = base + len + sumLensD s pre' from by omega]
                have hmain2 : sliceL stf (base + len + sumLensD s pre') (lenD s key)
                    = sliceL (writeSeg s.state_ base ((List.range len).map (fun j => sv.getD j 0 * (scaleOf s k len).getD j 1))) (base + len + sumLensD s pre') (lenD s key) := by
                  have hsum2 : sumLensD ({ s with state_ := writeSeg s.state_ base ((List.range len).map (fun j => sv.getD j 0 * (scaleOf s k len).getD j 1)) }) pre' = sumLensD s pre' :=
                    sumLensD_congr s _ pre' rfl
                  rw [← hsum2]
                  exact hmain
                exact hmain2.trans (sliceL_eq_of_drop_eq _ _ _ _ hdropw)

theorem frameSegs_flatten_length (s : RLState) (obs : List (String × List ℚ))
    (cmd : CmdDict) (ks : List String) (i : Nat)
    (hb : i + sumLensD s ks ≤ s.state_.length) :
    (frameSegs s obs cmd ks i).flatten.length = sumLensD s ks := by
  induction ks generalizing i with
  | nil => simp [frameSegs, sumLensD]
  | cons k rest ih =>
      have hsum : sumLensD s (k :: rest) = lenD s k + sumLensD s rest := rfl
      have hb' : (i + lenD s k) + sumLensD s rest ≤ s.state_.length := by omega
      simp only [frameSegs]
      cases hsrc : srcOf s obs cmd k with
      | none =>
          simp only [List.flatten_cons, List.length_append, ih _ hb',
            sliceL_length s.state_ i (lenD s k) (by omega), hsum]
      | some sv =>
          simp only [List.flatten_cons, List.length_append, ih _ hb',
            List.length_map, List.length_range, hsum]

theorem shift_write_eq (st sf : List ℚ) (L : Nat) (Sint : Int)
    (hS : 1 ≤ Sint) (hlen : L * Sint.toNat ≤ st.length) (hsf : sf.length = L) :
    writeSeg (if Sint > 1 then shiftFrom L (Sint - 1).toNat st else st) 0 sf
      = sf ++ (st.take ((Sint.toNat - 1) * L) ++ st.drop (Sint.toNat * L)) := by
  have hS1 : 1 ≤ Sint.toNat := by omega
  have eSL : Sint.toNat * L = (Sint.toNat - 1) * L + L := by
    have h1 : Sint.toNat - 1 + 1 = Sint.toNat := by omega
    calc Sint.toNat * L = (Sint.toNat - 1 + 1) * L := by rw [h1]
      _ = (Sint.toNat - 1) * L + L := by ring
  have eLS : L * Sint.toNat = Sint.toNat * L := Nat.mul_comm _ _
  by_cases h2 : Sint > 1
  · have hk : (Sint - 1).toNat = Sint.toNat - 1 := by omega
    have hb : (Sint.toNat - 1 + 1) * L ≤ st.length := by
      have : (Sint.toNat - 1 + 1) * L = Sint.toNat * L := by
        congr 1
        omega
      omega
    rw [if_pos h2, hk, shiftFrom_eq L (Sint.toNat - 1) st hb]
    have htl : (st.take L).length = L := by
      rw [List.length_take]
      omega
    rw [List.append_assoc,
      writeSeg_eq_splice sf _ 0 (by simp only [List.length_append, htl]; omega),
      List.take_zero, Nat.zero_add, hsf, List.drop_left' htl]
    have h3 : Sint.toNat - 1 + 1 = Sint.toNat := by omega
    rw [h3]
    simp
  · have hone : Sint.toNat = 1 := by omega
    rw [if_neg h2, writeSeg_eq_splice sf st 0 (by omega),
      List.take_zero, Nat.zero_add, hsf, hone]
    simp

theorem build_state_ok (obs : List (String × List ℚ)) (cmd : CmdDict) (s : RLState)
    (hInv : BuildInv s) (hmid : cmd.mode_id = none) :
    ∃ stf : List ℚ,
      build_state obs cmd none s
        = .ok { s with single_frame := builtFrame s obs cmd, state_ := stf } stf
      ∧ stf.length = s.state_.length
      ∧ stf.take (s.single_frame_len * s.cached_stack_size.toNat)
          = builtFrame s obs cmd
            ++ s.state_.take ((s.cached_stack_size.toNat - 1) * s.single_frame_len)
      ∧ (∀ pre key post, s.cached_non_stacked_order = pre ++ key :: post →
          srcOf s obs cmd key = none →
          sliceL stf (s.single_frame_len * s.cached_stack_size.toNat + sumLensD s pre)
              (lenD s key)
            = sliceL s.state_
                (s.single_frame_len * s.cached_stack_size.toNat + sumLensD s pre)
                (lenD s key))
      ∧ BuildInv { s with single_frame := builtFrame s obs cmd, state_ := stf } := by
  obtain ⟨hmode, hres, hresN, hsum, hsf, hS, hst⟩ := hInv
  have hS1 : 1 ≤ s.cached_stack_size.toNat := by omega
  have hLle : s.single_frame_len ≤ s.single_frame_len * s.cached_stack_size.toNat :=
    Nat.le_mul_of_pos_right _ (by omega)
  have eSL : s.cached_stack_size.toNat * s.single_frame_len
      = (s.cached_stack_size.toNat - 1) * s.single_frame_len + s.single_frame_len := by
    have h1 : s.cached_stack_size.toNat - 1 + 1 = s.cached_stack_size.toNat := by omega
    calc s.cached_stack_size.toNat * s.single_frame_len
        = (s.cached_stack_size.toNat - 1 + 1) * s.single_frame_len := by rw [h1]
      _ = (s.cached_stack_size.toNat - 1) * s.single_frame_len + s.single_frame_len := by
          ring
  have eLS : s.single_frame_len * s.cached_stack_size.toNat
      = s.cached_stack_size.toNat * s.single_frame_len := Nat.mul_comm _ _
  have hstack := stackedLoop_ok obs cmd s.cached_stacked_order 0 s hres
    (by rw [Nat.zero_add, hsum]; omega)
  have hflen : (frameSegs s obs cmd s.cached_stacked_order 0).flatten.length
      = s.single_frame_len := by
    rw [frameSegs_flatten_length s obs cmd _ 0 (by rw [Nat.zero_add, hsum]; omega), hsum]
  have hF : writeSeg s.single_frame 0 (frameSegs s obs cmd s.cached_stacked_order 0).flatten
      = builtFrame s obs cmd := by
    rw [writeSeg_full _ _ (by rw [hflen, hsf])]
    rfl
  have hbflen : (builtFrame s obs cmd).length = s.single_frame_len := by
    unfold builtFrame
    exact hflen
  have hshift := shift_write_eq s.state_ (builtFrame s obs cmd) s.single_frame_len
    s.cached_stack_size hS hst hbflen
  obtain ⟨stf, hN, hNlen, hNtake, hNslices⟩ :=
    nonStackedLoop_ok obs cmd s.cached_non_stacked_order
      (s.single_frame_len * s.cached_stack_size.toNat)
      ({ s with single_frame := builtFrame s obs cmd, state_ := builtFrame s obs cmd ++ (s.state_.take ((s.cached_stack_size.toNat - 1) * s.single_frame_len) ++ s.state_.drop (s.cached_stack_size.toNat * s.single_frame_len)) })
      hresN
  have hAlen : (builtFrame s obs cmd
      ++ (s.state_.take ((s.cached_stack_size.toNat - 1) * s.single_frame_len)
          ++ s.state_.drop (s.cached_stack_size.toNat * s.single_frame_len))).length
      = s.state_.length := by
    simp only [List.length_append, hbflen, List.length_take, List.length_drop]
    omega
  have hAtake : (builtFrame s obs cmd
      ++ (s.state_.take ((s.cached_stack_size.toNat - 1) * s.single_frame_len)
          ++ s.state_.drop (s.cached_stack_size.toNat * s.single_frame_len))).take
        (s.single_frame_len * s.cached_stack_size.toNat)
      = builtFrame s obs cmd
        ++ s.state_.take ((s.cached_stack_size.toNat - 1) * s.single_frame_len) := by
    rw [show s.single_frame_len * s.cached_stack_size.toNat
        = (builtFrame s obs cmd).length
          + (s.cached_stack_size.toNat - 1) * s.single_frame_len from by
      rw [hbflen]; omega]
    rw [List.take_append]
    congr 1
    rw [List.take_append_of_le_length (by rw [List.length_take]; omega),
      List.take_take, Nat.min_self]
  have hAdrop : ∀ o, s.cached_stack_size.toNat * s.single_frame_len ≤ o →
      (builtFrame s obs cmd
        ++ (s.state_.take ((s.cached_stack_size.toNat - 1) * s.single_frame_len)
            ++ s.state_.drop (s.cached_stack_size.toNat * s.single_frame_len))).drop o
      = s.state_.drop o := by
    intro o ho
    rw [List.drop_append_eq_append_drop,
      List.drop_of_length_le (by rw [hbflen]; omega), List.nil_append, hbflen,
      List.drop_append_eq_append_drop,
      List.drop_of_length_le (by rw [List.length_take]; omega),
      List.nil_append, List.length_take, List.drop_drop]
    congr 1
    omega
  refine ⟨stf, ?_, ?_, ?_, ?_, ?_⟩
  · unfold build_state
    rw [if_neg (by
      rw [Option.isNone_iff_eq_none]
      exact Option.isSome_iff_ne_none.mp hmode), hmid]
    simp only [set_mode, hstack, hF, hshift, hN]
  · rw [hNlen]
    exact hAlen
  · rw [show stf.take (s.single_frame_len * s.cached_stack_size.toNat)
        = ((builtFrame s obs cmd
            ++ (s.state_.take ((s.cached_stack_size.toNat - 1) * s.single_frame_len)
                ++ s.state_.drop (s.cached_stack_size.toNat * s.single_frame_len))).take
          (s.single_frame_len * s.cached_stack_size.toNat)) from hNtake]
    exact hAtake
  · intro pre key post hdec hkey
    have hmain := hNslices pre key post hdec hkey
    have hsum2 : sumLensD ({ s with single_frame := builtFrame s obs cmd, state_ := builtFrame s obs cmd ++ (s.state_.take ((s.cached_stack_size.toNat - 1) * s.single_frame_len) ++ s.state_.drop (s.cached_stack_size.toNat * s.single_frame_len)) }) pre = sumLensD s pre :=
      sumLensD_congr s _ pre rfl
    have hmain2 : sliceL stf
        (s.single_frame_len * s.cached_stack_size.toNat + sumLensD s pre) (lenD s key)
        = sliceL (builtFrame s obs cmd
            ++ (s.state_.take ((s.cached_stack_size.toNat - 1) * s.single_frame_len)
                ++ s.state_.drop (s.cached_stack_size.toNat * s.single_frame_len)))
          (s.single_frame_len * s.cached_stack_size.toNat + sumLensD s pre)
          (lenD s key) := by
      rw [← hsum2]
      exact hmain
    rw [hmain2]
    exact sliceL_eq_of_drop_eq _ _ _ _ (hAdrop _ (by omega))
  · refine ⟨hmode, ?_, ?_, ?_, ?_, hS, ?_⟩
    · intro k hk
      exact hres k hk
    · intro k hk
      exact hresN k hk
    · rw [sumLensD_congr s { s with single_frame := builtFrame s obs cmd, state_ := stf } _ rfl]
      exact hsum
    · exact hbflen
    · show s.single_frame_len * s.cached_stack_size.toNat ≤ stf.length
      rw [hNlen]
      exact le_trans hst (le_of_eq hAlen.symm)

theorem sumLensD_append (s : RLState) (xs ys : List String) :
    sumLensD s (xs ++ ys) = sumLensD s xs + sumLensD s ys := by
  induction xs with
  | nil => simp [sumLensD]
  | cons k rest ih =>
      show lenD s k + sumLensD s (rest ++ ys) = lenD s k + sumLensD s rest + sumLensD s ys
      rw [ih, Nat.add_assoc]

theorem frameSegs_append (s : RLState) (obs : List (String × List ℚ)) (cmd : CmdDict)
    (ks1 ks2 : List String) (i : Nat) :
    frameSegs s obs cmd (ks1 ++ ks2) i
      = frameSegs s obs cmd ks1 i ++ frameSegs s obs cmd ks2 (i + sumLensD s ks1) := by
  induction ks1 generalizing i with
  | nil => simp [frameSegs, sumLensD]
  | cons k rest ih =>
      have h1 : frameSegs s obs cmd ((k :: rest) ++ ks2) i
          = (match srcOf s obs cmd k with
             | none => sliceL s.state_ i (lenD s k)
             | some sv => (List.range (lenD s k)).map
                 (fun j => sv.getD j 0 * (scaleOf s k (lenD s k)).getD j 1))
            :: frameSegs s obs cmd (rest ++ ks2) (i + lenD s k) := rfl
      rw [h1, ih, Nat.add_assoc i (lenD s k) (sumLensD s rest)]
      rfl

theorem sliceL_append_exact (xs ys : List ℚ) (a n : Nat) (h : xs.length = a) :
    sliceL (xs ++ ys) a n = ys.take n := by
  unfold sliceL
  rw [List.drop_left' h]

theorem builtFrame_length (s : RLState) (obs : List (String × List ℚ)) (cmd : CmdDict)
    (hb : sumLensD s s.cached_stacked_order ≤ s.state_.length) :
    (builtFrame s obs cmd).length = sumLensD s s.cached_stacked_order := by
  unfold builtFrame
  exact frameSegs_flatten_length s obs cmd _ 0 (by omega)

theorem builtFrame_missing_slice (s : RLState) (obs : List (String × List ℚ))
    (cmd : CmdDict) (pre : List String) (key : String) (post : List String)
    (hdec : s.cached_stacked_order = pre ++ key :: post)
    (hb : sumLensD s s.cached_stacked_order ≤ s.state_.length)
    (hkey : srcOf s obs cmd key = none) :
    sliceL (builtFrame s obs cmd) (sumLensD s pre) (lenD s key)
      = sliceL s.state_ (sumLensD s pre) (lenD s key) := by
  have hsumApp : sumLensD s (pre ++ key :: post)
      = sumLensD s pre + (lenD s key + sumLensD s post) := by
    rw [sumLensD_append]
    rfl
  rw [hdec, hsumApp] at hb
  have hlenpre : (frameSegs s obs cmd pre 0).flatten.length = sumLensD s pre :=
    frameSegs_flatten_length s obs cmd pre 0 (by omega)
  have hseglen : (sliceL s.state_ (0 + sumLensD s pre) (lenD s key)).length
      = lenD s key := sliceL_length _ _ _ (by omega)
  unfold builtFrame
  rw [hdec, frameSegs_append, List.flatten_append]
  simp only [frameSegs, hkey, List.flatten_cons]
  rw [sliceL_append_exact _ _ _ _ hlenpre,
    List.take_append_of_le_length (le_of_eq hseglen.symm),
    List.take_of_length_le (le_of_eq hseglen), Nat.zero_add]

/-- C4: on every `build_state` call from a configured state, a stacked
channel missing from the observation dict has its slot-0 segment copied
exactly from the previous most-recent frame's corresponding segment
(held, not zeroed), while a missing non-stacked channel's region of the
state vector is left untouched from the prior tick. -/
theorem C4_missing_channel (obs : List (String × List ℚ)) (cmd : CmdDict) (s : RLState)
    (pre post pre' post' : List String) (key key' : String)
    (hInv : BuildInv s) (hmid : cmd.mode_id = none)
    (hstk : s.cached_stacked_order = pre ++ key :: post)
    (hmiss : srcOf s obs cmd key = none)
    (hnon : s.cached_non_stacked_order = pre' ++ key' :: post')
    (hmiss' : srcOf s obs cmd key' = none) :
    ∃ s' v, build_state obs cmd none s = .ok s' v
      ∧ sliceL s'.state_ (sumLensD s pre) (lenD s key)
          = sliceL s.state_ (sumLensD s pre) (lenD s key)
      ∧ sliceL s'.state_
            (s.single_frame_len * s.cached_stack_size.toNat + sumLensD s pre')
            (lenD s key')
          = sliceL s.state_
              (s.single_frame_len * s.cached_stack_size.toNat + sumLensD s pre')
              (lenD s key') := by
  obtain ⟨hmode, hres, hresN, hsum, hsf, hS, hst⟩ := hInv
  obtain ⟨stf, hbs, hlen, htake, hslices, hInv2⟩ :=
    build_state_ok obs cmd s ⟨hmode, hres, hresN, hsum, hsf, hS, hst⟩ hmid
  refine ⟨_, stf, hbs, ?_, hslices pre' key' post' hnon hmiss'⟩
  show sliceL stf (sumLensD s pre) (lenD s key)
      = sliceL s.state_ (sumLensD s pre) (lenD s key)
  have hS1 : 1 ≤ s.cached_stack_size.toNat := by omega
  have hbound : sumLensD s pre + lenD s key ≤ s.single_frame_len := by
    rw [hstk, sumLensD_append,
      show sumLensD s (key :: post) = lenD s key + sumLensD s post from rfl] at hsum
    omega
  have hLle : s.single_frame_len ≤ s.single_frame_len * s.cached_stack_size.toNat :=
    Nat.le_mul_of_pos_right _ (by omega)
  have hsb : sumLensD s s.cached_stacked_order ≤ s.state_.length := by
    rw [hsum]
    omega
  have hbf : (builtFrame s obs cmd).length = s.single_frame_len := by
    rw [builtFrame_length s obs cmd hsb, hsum]
  rw [← sliceL_take stf (s.single_frame_len * s.cached_stack_size.toNat) _ _ (by omega),
    htake, sliceL_append_left _ _ _ _ (by rw [hbf]; omega)]
  exact builtFrame_missing_slice s obs cmd pre key post hstk hsb hmiss

/-- Witness for C4 at a concrete configured state: `proj_grav` (stacked)
and `lin_vel` (non-stacked) are absent from the observation dict. -/
theorem C4_witness :
    ∃ s' v, build_state wObs4 (wCmd 0) none w4RL = .ok s' v
      ∧ sliceL s'.state_ (sumLensD w4RL ["ang_vel"]) (lenD w4RL "proj_grav")
          = sliceL w4RL.state_ (sumLensD w4RL ["ang_vel"]) (lenD w4RL "proj_grav")
      ∧ sliceL s'.state_
            (w4RL.single_frame_len * w4RL.cached_stack_size.toNat + sumLensD w4RL [])
            (lenD w4RL "lin_vel")
          = sliceL w4RL.state_
              (w4RL.single_frame_len * w4RL.cached_stack_size.toNat + sumLensD w4RL [])
              (lenD w4RL "lin_vel") :=
  C4_missing_channel wObs4 (wCmd 0) w4RL ["ang_vel"] [] [] [] "proj_grav" "lin_vel"
    ⟨rfl, by decide, by decide, rfl, rfl, by decide, by decide⟩ rfl rfl rfl rfl rfl

theorem iterBuild_basic (obs : Nat → List (String × List ℚ)) (cmd : Nat → CmdDict)
    (s0 : RLState) (hInv : BuildInv s0) (hmid : ∀ t, (cmd t).mode_id = none) :
    ∀ t, cachesEq (iterBuild obs cmd s0 t) s0
      ∧ BuildInv (iterBuild obs cmd s0 t)
      ∧ (iterBuild obs cmd s0 t).state_.length = s0.state_.length := by
  intro t
  induction t with
  | zero => exact ⟨⟨rfl, rfl, rfl, rfl, rfl, rfl, rfl, rfl, rfl⟩, hInv, rfl⟩
  | succ t ih =>
      obtain ⟨hc, hI, hlen3⟩ := ih
      obtain ⟨stf, hbs, hlenf, htake, hslices, hInv2⟩ :=
        build_state_ok (obs t) (cmd t) _ hI (hmid t)
      have hstep : iterBuild obs cmd s0 (t+1) = { iterBuild obs cmd s0 t with single_frame := builtFrame (iterBuild obs cmd s0 t) (obs t) (cmd t), state_ := stf } := by
        show (build_state (obs t) (cmd t) none (iterBuild obs cmd s0 t)).state = _
        rw [hbs]
        rfl
      refine ⟨?_, ?_, ?_⟩
      · rw [hstep]
        exact ⟨hc.1, hc.2.1, hc.2.2.1, hc.2.2.2.1, hc.2.2.2.2.1, hc.2.2.2.2.2.1,
          hc.2.2.2.2.2.2.1, hc.2.2.2.2.2.2.2.1, hc.2.2.2.2.2.2.2.2⟩
      · rw [hstep]
        exact hInv2
      · rw [hstep]
        exact hlenf.trans hlen3

theorem iterBuild_frame_length (obs : Nat → List (String × List ℚ))
    (cmd : Nat → CmdDict) (s0 : RLState) (hInv : BuildInv s0)
    (hmid : ∀ t, (cmd t).mode_id = none) (u : Nat) :
    (builtFrame (iterBuild obs cmd s0 u) (obs u) (cmd u)).length
      = s0.single_frame_len := by
  obtain ⟨hc, hI, hlen3⟩ := iterBuild_basic obs cmd s0 hInv hmid u
  obtain ⟨hmo, hr, hrn, hsu, hsfu, hSu, hstu⟩ := hI
  have hb : sumLensD (iterBuild obs cmd s0 u) (iterBuild obs cmd s0 u).cached_stacked_order
      ≤ (iterBuild obs cmd s0 u).state_.length := by
    rw [hsu]
    exact le_trans (Nat.le_mul_of_pos_right _ (by omega)) hstu
  rw [builtFrame_length _ _ _ hb, hsu, hc.2.2.1]

theorem iterBuild_region (obs : Nat → List (String × List ℚ)) (cmd : Nat → CmdDict)
    (s0 : RLState) (hInv : BuildInv s0) (hmid : ∀ t, (cmd t).mode_id = none) :
    ∀ t, (iterBuild obs cmd s0 t).state_.take
        (s0.single_frame_len * s0.cached_stack_size.toNat)
      = (recentFrames (fun u => builtFrame (iterBuild obs cmd s0 u) (obs u) (cmd u))
          t (min t s0.cached_stack_size.toNat)).flatten
        ++ s0.state_.take
            (s0.single_frame_len
              * (s0.cached_stack_size.toNat - min t s0.cached_stack_size.toNat)) := by
  intro t
  induction t with
  | zero => simp [recentFrames, iterBuild]
  | succ t ih =>
      set f : Nat → List ℚ :=
        fun u => builtFrame (iterBuild obs cmd s0 u) (obs u) (cmd u) with hfdef
      obtain ⟨hc, hI, hlen3⟩ := iterBuild_basic obs cmd s0 hInv hmid t
      obtain ⟨stf, hbs, hlenf, htake, hslices, hInv2⟩ :=
        build_state_ok (obs t) (cmd t) _ hI (hmid t)
      have hstep : iterBuild obs cmd s0 (t+1) = { iterBuild obs cmd s0 t with single_frame := builtFrame (iterBuild obs cmd s0 t) (obs t) (cmd t), state_ := stf } := by
        show (build_state (obs t) (cmd t) none (iterBuild obs cmd s0 t)).state = _
        rw [hbs]
        rfl
      have hLt : (iterBuild obs cmd s0 t).single_frame_len = s0.single_frame_len :=
        hc.2.2.1
      have hSt : (iterBuild obs cmd s0 t).cached_stack_size = s0.cached_stack_size :=
        hc.2.2.2.2.2.2.1
      rw [hLt, hSt,
        show builtFrame (iterBuild obs cmd s0 t) (obs t) (cmd t) = f t from rfl] at htake
      have hS0N : 1 ≤ s0.cached_stack_size.toNat := by
        have := hInv.2.2.2.2.2.1
        omega
      have hfl : ∀ u, (f u).length = s0.single_frame_len :=
        iterBuild_frame_length obs cmd s0 hInv hmid
      have hmem := recentFrames_mem_length f s0.single_frame_len hfl t
        (min t s0.cached_stack_size.toNat)
      have hRFlen : ((recentFrames f t (min t s0.cached_stack_size.toNat)).flatten).length
          = s0.single_frame_len * min t s0.cached_stack_size.toNat := by
        rw [flatten_length_uniform _ _ hmem, recentFrames_length]
      have e0 : s0.single_frame_len * s0.cached_stack_size.toNat
          = s0.cached_stack_size.toNat * s0.single_frame_len := Nat.mul_comm _ _
      have hmul1 : (s0.cached_stack_size.toNat - 1) * s0.single_frame_len
          ≤ s0.single_frame_len * s0.cached_stack_size.toNat := by
        rw [e0]
        exact Nat.mul_le_mul_right _ (by omega)
      have hX : (iterBuild obs cmd s0 t).state_.take
          ((s0.cached_stack_size.toNat - 1) * s0.single_frame_len)
          = ((recentFrames f t (min t s0.cached_stack_size.toNat)).flatten
              ++ s0.state_.take
                  (s0.single_frame_len
                    * (s0.cached_stack_size.toNat - min t s0.cached_stack_size.toNat))).take
            ((s0.cached_stack_size.toNat - 1) * s0.single_frame_len) := by
        conv_lhs =>
          rw [show (s0.cached_stack_size.toNat - 1) * s0.single_frame_len
              = min ((s0.cached_stack_size.toNat - 1) * s0.single_frame_len)
                  (s0.single_frame_len * s0.cached_stack_size.toNat)
              from (Nat.min_eq_left hmul1).symm,
            ← List.take_take, ih]
      rw [hstep]
      show stf.take (s0.single_frame_len * s0.cached_stack_size.toNat) = _
      rw [htake]
      by_cases hts : t < s0.cached_stack_size.toNat
      · have hmt : min t s0.cached_stack_size.toNat = t := Nat.min_eq_left (by omega)
        have hmt1 : min (t + 1) s0.cached_stack_size.toNat = t + 1 :=
          Nat.min_eq_left (by omega)
        rw [hmt] at hX hRFlen
        have e2 : s0.single_frame_len * t
            ≤ (s0.cached_stack_size.toNat - 1) * s0.single_frame_len := by
          rw [Nat.mul_comm]
          exact Nat.mul_le_mul_right _ (by omega)
        have hRFfull : (recentFrames f t t).flatten.take
            ((s0.cached_stack_size.toNat - 1) * s0.single_frame_len)
            = (recentFrames f t t).flatten :=
          List.take_of_length_le (by rw [hRFlen]; exact e2)
        rw [List.take_append_eq_append_take, hRFfull, hRFlen, List.take_take] at hX
        have h4a : (s0.cached_stack_size.toNat - 1) * s0.single_frame_len
            = s0.cached_stack_size.toNat * s0.single_frame_len
              - 1 * s0.single_frame_len := Nat.sub_mul _ _ _
        have h4b : s0.single_frame_len * (s0.cached_stack_size.toNat - (t + 1))
            = (s0.cached_stack_size.toNat - (t + 1)) * s0.single_frame_len :=
          Nat.mul_comm _ _
        have h4c : (s0.cached_stack_size.toNat - (t + 1)) * s0.single_frame_len
            = s0.cached_stack_size.toNat * s0.single_frame_len
              - (t + 1) * s0.single_frame_len := Nat.sub_mul _ _ _
        have h4d : (t + 1) * s0.single_frame_len
            = t * s0.single_frame_len + s0.single_frame_len := by ring
        have h4e : s0.single_frame_len * t = t * s0.single_frame_len := Nat.mul_comm _ _
        have e4 : (s0.cached_stack_size.toNat - 1) * s0.single_frame_len
            - s0.single_frame_len * t
            = s0.single_frame_len * (s0.cached_stack_size.toNat - (t + 1)) := by
          omega
        have e5 : s0.single_frame_len * (s0.cached_stack_size.toNat - (t + 1))
            ≤ s0.single_frame_len * (s0.cached_stack_size.toNat - t) :=
          Nat.mul_le_mul_left _ (by omega)
        have emin : min ((s0.cached_stack_size.toNat - 1) * s0.single_frame_len
              - s0.single_frame_len * t)
            (s0.single_frame_len * (s0.cached_stack_size.toNat - t))
            = s0.single_frame_len * (s0.cached_stack_size.toNat - (t + 1)) := by
          rw [e4]
          exact Nat.min_eq_left e5
        rw [emin] at hX
        rw [hX, hmt1, recentFrames_succ, List.flatten_cons, List.append_assoc]
      · have hmt : min t s0.cached_stack_size.toNat = s0.cached_stack_size.toNat :=
          Nat.min_eq_right (by omega)
        have hmt1 : min (t + 1) s0.cached_stack_size.toNat = s0.cached_stack_size.toNat :=
          Nat.min_eq_right (by omega)
        rw [hmt] at hX hRFlen hmem
        rw [Nat.sub_self, Nat.mul_zero, List.take_zero, List.append_nil] at hX
        rw [hmt1, Nat.sub_self, Nat.mul_zero, List.take_zero, List.append_nil]
        have e6 : (s0.cached_stack_size.toNat - 1) * s0.single_frame_len
            = s0.single_frame_len * (s0.cached_stack_size.toNat - 1) := Nat.mul_comm _ _
        have hTE : (recentFrames f t s0.cached_stack_size.toNat).flatten.take
            (s0.single_frame_len * (s0.cached_stack_size.toNat - 1))
            = ((recentFrames f t s0.cached_stack_size.toNat).take
                (s0.cached_stack_size.toNat - 1)).flatten :=
          flatten_take_exact _ _ _ hmem (by rw [recentFrames_length]; omega)
        rw [e6, hTE, recentFrames_take, Nat.min_eq_left (Nat.sub_le _ _)] at hX
        rw [e6, hX, ← List.flatten_cons, ← recentFrames_succ,
          show s0.cached_stack_size.toNat - 1 + 1 = s0.cached_stack_size.toNat from by
            omega]

/-- C3: from any configured state, for stack depth `N` and single-frame
length `L`, after `K ≥ N` calls to `build_state` the stacked region
(the first `L*N` entries of the state vector) equals the last `N` built
frames concatenated newest-first: each call shifts the older frames one
slot toward the end and writes the freshly built frame into slot 0. -/
theorem C3_stacking (obs : Nat → List (String × List ℚ)) (cmd : Nat → CmdDict)
    (s0 : RLState) (hInv : BuildInv s0) (hmid : ∀ t, (cmd t).mode_id = none)
    (K : Nat) (hK : s0.cached_stack_size.toNat ≤ K) :
    (iterBuild obs cmd s0 K).state_.take
        (s0.single_frame_len * s0.cached_stack_size.toNat)
      = (recentFrames (fun u => builtFrame (iterBuild obs cmd s0 u) (obs u) (cmd u))
          K s0.cached_stack_size.toNat).flatten := by
  have h := iterBuild_region obs cmd s0 hInv hmid K
  rw [Nat.min_eq_right hK, Nat.sub_self, Nat.mul_zero, List.take_zero,
    List.append_nil] at h
  exact h

/-- Witness for C3: the two-deep stacking mode `wMode` run for `K = 2`
ticks from `wRL`, with tick `t` reporting `ang_vel = [t+1, 0, 0]`. -/
theorem C3_witness :
    BuildInv wRL ∧ (∀ t, (wCmd t).mode_id = none) ∧ wRL.cached_stack_size.toNat ≤ 2
    ∧ (iterBuild wObs wCmd wRL 2).state_.take
        (wRL.single_frame_len * wRL.cached_stack_size.toNat)
      = (recentFrames (fun u => builtFrame (iterBuild wObs wCmd wRL u) (wObs u) (wCmd u))
          2 wRL.cached_stack_size.toNat).flatten :=
  ⟨⟨rfl, by decide, by decide, rfl, rfl, by decide, by decide⟩, fun _ => rfl, by decide,
    C3_stacking wObs wCmd wRL
      ⟨rfl, by decide, by decide, rfl, rfl, by decide, by decide⟩
      (fun _ => rfl) 2 (by decide)⟩

end rl
